import Mathlib

/-!
A shallow embedding of the GraphQL Mirror core (`src/graphql/mirror.js`):
the relational store state, the compiled schema metadata, and the main
operations (object registration, own-data and connection ingestion,
outdated-entity discovery, connection query construction, and extraction),
together with theorems about them.

Conventions of the embedding:

* The SQLite store is modelled as a `State` value holding each table as a
  list of rows.  SQL `NULL` is `Option.none`; stored JSON text is
  `SqlVal.text`; the nested-presence markers are `SqlVal.int`.
* Fallible operations return `Except MError State`.  A thrown JavaScript
  error corresponds to `Except.error`; since the callers wrap every write
  in a transaction that rolls back on error, returning `.error` without a
  state faithfully models the store being left unchanged.
* GraphQL responses are modelled by the shapes that the source's Flow
  types declare (`PrimitiveResult | NodeFieldResult | NestedFieldResult`),
  with "the field is absent" (`undefined` in JavaScript) modelled as a
  failing association-list lookup.
-/

/-- JSON-style values that can appear as the payload of an "egg" (a child
of a nested field) in a GraphQL response record: a primitive result or a
shallow node reference (`PrimitiveResult | NodeFieldResult`). -/
inductive EggVal where
  | null
  | str (s : String)
  | num (n : Int)
  | bool (b : Bool)
  | nodeRef (typename id : String)
  deriving DecidableEq

/-- JSON-style values appearing as a field of an own-data GraphQL response
record: a primitive result, a shallow node reference, or a nested group of
eggs (`PrimitiveResult | NodeFieldResult | NestedFieldResult`). -/
inductive FieldVal where
  | null
  | str (s : String)
  | num (n : Int)
  | bool (b : Bool)
  | nodeRef (typename id : String)
  | nestedObj (eggs : List (String × EggVal))
  deriving DecidableEq

/-- A non-null `NodeFieldResult`: the shallow `\x7b__typename, id\x7d` record. -/
structure NodeRef where
  typename : String
  id : String
  deriving DecidableEq

/-- Association-list lookup, modelling JavaScript property access on an
object literal (a missing key is `undefined`, modelled as `none`). -/
def lookupAssoc {α : Type} (l : List (String × α)) (k : String) : Option α :=
  (l.find? (fun p => p.1 == k)).map (fun p => p.2)

/-- Association-list update, modelling JavaScript property assignment:
replace the value of an existing key in place, else append the new key. -/
def setAssoc {α : Type} (l : List (String × α)) (k : String) (v : α) : List (String × α) :=
  if (l.find? (fun p => p.1 == k)).isSome then
    l.map (fun p => if p.1 == k then (k, v) else p)
  else
    l ++ [(k, v)]

/-- A SQL cell value as stored by the mirror: SQL `NULL`, a text value
(JSON-encoded payloads), or an integer (nested-presence markers and the
coerced booleans written by the connection updater). -/
inductive SqlVal where
  | null
  | text (s : String)
  | int (n : Int)
  deriving DecidableEq

/-- One row of the `objects` table. -/
structure ObjRow where
  id : String
  typename : String
  lastUpdate : Option Nat
  deriving DecidableEq

/-- One row of the `links` table. -/
structure LinkRow where
  parentId : String
  fieldname : String
  childId : Option String
  deriving DecidableEq

/-- One row of the `connections` table. -/
structure ConnRow where
  rowid : Nat
  objectId : String
  fieldname : String
  lastUpdate : Option Nat
  totalCount : Option Int
  hasNextPage : Option Bool
  endCursor : Option String
  deriving DecidableEq

/-- One row of the `connection_entries` table. -/
structure EntryRow where
  connectionId : Nat
  idx : Int
  childId : Option String
  deriving DecidableEq

/-- One row of a per-type `primitives_T` table: the object id plus the
dynamic columns (primitive fields, nested-presence markers, and
`"F.E"` egg columns). -/
structure PrimRow where
  id : String
  columns : List (String × SqlVal)
  deriving DecidableEq

/-- The mirror's SQLite database.  `meta` is the single `config` cell of
the singleton `meta` table (`none` when the table is absent or empty);
`structuralTables` records whether the schema-independent tables exist;
`primitives` maps each object typename to its `primitives_T` table;
`nextConnRowid` models SQLite's monotone rowid allocation for
`connections`. -/
structure State where
  meta : Option String
  structuralTables : Bool
  updates : List (Nat × Int)
  objects : List ObjRow
  links : List LinkRow
  connections : List ConnRow
  connectionEntries : List EntryRow
  primitives : List (String × List PrimRow)
  nextConnRowid : Nat
  deriving DecidableEq

/-- The errors thrown by the mirror core.  Each constructor corresponds to
one `throw new Error(...)` site in `mirror.js`; the constructor arguments
carry the data interpolated into the message. -/
inductive MError where
  | incompatible
  | invalidTypeName (t : String)
  | invalidFieldName (f : String)
  | unknownType (t : String)
  | nonObjectType (t : String)
  | inconsistentType (id existing got : String)
  | noSuchConnection (objectId fieldname : String)
  | missingPrimitive (fieldname id typename : String)
  | missingNested (fieldname id typename : String)
  | missingNestedEgg (nest egg id typename : String)
  | missingNodeRef (fieldname id typename : String)
  | inconsistentTypenames (expected got : String)
  | nonexistentNode (id : String)
  | badChangeCount
  | missingParameter (p : String)
  | notFetched (rootId id : String) (fieldname : Option String)
  | noSuchObject (id : String)
  | corruption (msg : String)
  | noSuchField (t f : String)
  | nonConnectionField (t f : String)
  | inconsistentPlanTypenames (id a b : String)
  | invalidEggFieldName (egg nest : String)
  | scalarSelection (t : String)
  | enumSelection (t : String)
  | connectionOnNonObject (t : String)
  deriving DecidableEq

/-- The declared type of an egg (child of a NESTED field) in the GraphQL
schema: PRIMITIVE or NODE.  Fidelity is modelled as a Boolean
(`faithful = true`); the core rejects UNFAITHFUL fields. -/
inductive EggType where
  | primitive
  | node (elementType : String) (faithful : Bool)
  deriving DecidableEq

/-- The declared type of an object field in the GraphQL schema. -/
inductive FieldTypeDef where
  | idField
  | primitive
  | node (elementType : String) (faithful : Bool)
  | connection (elementType : String)
  | nested (eggs : List (String × EggType))
  deriving DecidableEq

/-- A type of the GraphQL schema. -/
inductive TypeDef where
  | scalar
  | enum
  | object (fields : List (String × FieldTypeDef))
  | union (clauses : List String)
  deriving DecidableEq

/-- Modelled from the spec: the GraphQL schema descriptor consumed by the
mirror (the `graphql/schema.js` module is not part of the sources under
verification).  A schema maps typenames to types; field maps use
association lists with the JavaScript object-key order. -/
abbrev SchemaDef : Type := List (String × TypeDef)

/-- The egg decomposition of one NESTED field inside `SchemaInfo`:
the egg primitives and the egg node fields with their element types
(`nestedFields[f].primitives` / `.nodes` in the source). -/
structure NestedInfo where
  primitives : List String
  nodes : List (String × String)
  deriving DecidableEq

/-- The per-OBJECT-type record of `SchemaInfo`: the raw field map plus the
partition of field names by kind. -/
structure ObjectInfo where
  fields : List (String × FieldTypeDef)
  primitiveFieldNames : List String
  linkFieldNames : List String
  connectionFieldNames : List String
  nestedFieldNames : List String
  nestedFields : List (String × NestedInfo)
  deriving DecidableEq

/-- The compiled schema metadata (`SchemaInfo` in the source). -/
structure SchemaInfo where
  objectTypes : List (String × ObjectInfo)
  unionTypes : List (String × List String)
  deriving DecidableEq

/-- The fields of a `Mirror` instance that the operations read:
the schema, the derived `SchemaInfo`, and the blacklisted ids. -/
structure Mirror where
  schema : SchemaDef
  schemaInfo : SchemaInfo
  blacklistedIds : List String
  deriving DecidableEq

/-- `isSqlSafe` from the source: `true` iff the token has no character
outside `[A-Za-z0-9_]`.  (As in the source, the empty string passes.) -/
def isSqlSafe (token : String) : Bool :=
  token.data.all (fun c => c.isAlphanum || c == '_')

/-- `parameterNameFor.topLevelField` from the source:
`["t", fieldname].join("_")`. -/
def parameterNameForTopLevelField (fieldname : String) : String :=
  "t_" ++ fieldname

/-- Decimal digit characters, lowest digit first, of a positive number;
the accumulator holds the already-produced lower digits. -/
def natToDecAux : Nat → List Char → List Char
  | 0, acc => acc
  | n + 1, acc => natToDecAux ((n + 1) / 10) (Nat.digitChar ((n + 1) % 10) :: acc)
  decreasing_by exact Nat.div_lt_self (Nat.succ_pos n) (by omega)

/-- The decimal representation of a natural number, as produced by
JavaScript's `String(n)` for the (non-negative) `.length` values the
source feeds it. -/
def natToDec (n : Nat) : String :=
  if n = 0 then "0" else String.mk (natToDecAux n [])

/-- `parameterNameFor.nestedField` from the source:
`["n", String(nestFieldname.length), nestFieldname, eggFieldname].join("_")`. -/
def parameterNameForNestedField (nestFieldname eggFieldname : String) : String :=
  "n_" ++ natToDec nestFieldname.length ++ "_" ++ nestFieldname ++ "_" ++ eggFieldname

/-- Escape one character for a JSON string literal (quotes and
backslashes; the payloads under verification contain no control
characters). -/
def jsonEscapeChar (c : Char) : List Char :=
  if c == '\\' then ['\\', '\\']
  else if c == '"' then ['\\', '"']
  else [c]

/-- A JSON string literal. -/
def jsonStr (s : String) : String :=
  "\"" ++ String.mk (s.data.flatMap jsonEscapeChar) ++ "\""

/-- A JSON object literal from already-encoded values, in the given key
order. -/
def jsonObjBody (kvs : List (String × String)) : String :=
  "\x7b" ++ String.intercalate "," (kvs.map (fun p => jsonStr p.1 ++ ":" ++ p.2)) ++ "\x7d"

/-- A JSON object literal with keys sorted, as `json-stable-stringify`
produces. -/
def jsonSortedObj (kvs : List (String × String)) : String :=
  jsonObjBody (kvs.mergeSort (fun a b => decide (a.1 ≤ b.1)))

/-- `JSON.stringify` on an egg value of a GraphQL response. -/
def jsonOfEgg : EggVal → String
  | .null => "null"
  | .str s => jsonStr s
  | .num n => toString n
  | .bool true => "true"
  | .bool false => "false"
  | .nodeRef t i => jsonObjBody [("__typename", jsonStr t), ("id", jsonStr i)]

/-- `JSON.stringify` on a field value of a GraphQL response. -/
def jsonOfField : FieldVal → String
  | .null => "null"
  | .str s => jsonStr s
  | .num n => toString n
  | .bool true => "true"
  | .bool false => "false"
  | .nodeRef t i => jsonObjBody [("__typename", jsonStr t), ("id", jsonStr i)]
  | .nestedObj eggs =>
      jsonObjBody (eggs.map (fun p => (p.1, jsonOfEgg p.2)))

/-- Modelled from the spec: the encoding of a NODE fidelity value inside
the configuration fingerprint (the schema descriptor module is not among
the sources under verification). -/
def encFidelity (faithful : Bool) : String :=
  jsonObjBody [("type", jsonStr (if faithful then "FAITHFUL" else "UNFAITHFUL"))]

/-- Modelled from the spec: the canonical encoding of an egg type. -/
def encEggType : EggType → String
  | .primitive => jsonObjBody [("type", jsonStr "PRIMITIVE")]
  | .node et f =>
      jsonObjBody [("elementType", jsonStr et), ("fidelity", encFidelity f), ("type", jsonStr "NODE")]

/-- Modelled from the spec: the canonical encoding of a field type. -/
def encFieldTypeDef : FieldTypeDef → String
  | .idField => jsonObjBody [("type", jsonStr "ID")]
  | .primitive => jsonObjBody [("type", jsonStr "PRIMITIVE")]
  | .node et f =>
      jsonObjBody [("elementType", jsonStr et), ("fidelity", encFidelity f), ("type", jsonStr "NODE")]
  | .connection et =>
      jsonObjBody [("elementType", jsonStr et), ("type", jsonStr "CONNECTION")]
  | .nested eggs =>
      jsonObjBody
        [("eggs", jsonSortedObj (eggs.map (fun p => (p.1, encEggType p.2)))),
         ("type", jsonStr "NESTED")]

/-- Modelled from the spec: the canonical encoding of a schema type. -/
def encTypeDef : TypeDef → String
  | .scalar => jsonObjBody [("type", jsonStr "SCALAR")]
  | .enum => jsonObjBody [("type", jsonStr "ENUM")]
  | .object fields =>
      jsonObjBody
        [("fields", jsonSortedObj (fields.map (fun p => (p.1, encFieldTypeDef p.2)))),
         ("type", jsonStr "OBJECT")]
  | .union clauses =>
      jsonObjBody
        [("clauses", jsonSortedObj (clauses.map (fun c => (c, "true")))),
         ("type", jsonStr "UNION")]

/-- Modelled from the spec: the canonical `meta.config` fingerprint,
`stringify(\x7bversion: "MIRROR_v3", schema, options: \x7bblacklistedIds\x7d\x7d)` with
`json-stable-stringify` key sorting (`options` < `schema` < `version`).
The blacklist is stored as the id-keyed object the constructor builds. -/
def configBlob (schema : SchemaDef) (blacklistedIds : List String) : String :=
  jsonObjBody
    [("options",
      jsonObjBody [("blacklistedIds", jsonSortedObj (blacklistedIds.map (fun i => (i, "true"))))]),
     ("schema", jsonSortedObj (schema.map (fun p => (p.1, encTypeDef p.2)))),
     ("version", jsonStr "MIRROR_v3")]

/-- Schema lookup, `this._schema[typename]`. -/
def lookupType (schema : SchemaDef) (typename : String) : Option TypeDef :=
  lookupAssoc schema typename

/-- SchemaInfo lookup, `this._schemaInfo.objectTypes[typename]`. -/
def lookupObjectInfo (info : SchemaInfo) (typename : String) : Option ObjectInfo :=
  lookupAssoc info.objectTypes typename

/-- The egg decomposition of a nested field,
`objectType.nestedFields[fieldname]`.  For the `SchemaInfo` of a schema,
every nested field name has an entry; on other values, the default stands
in for the out-of-contract JavaScript undefined access. -/
def nestedInfoOf (ot : ObjectInfo) (f : String) : NestedInfo :=
  (lookupAssoc ot.nestedFields f).getD ⟨[], []⟩

/-- Reading a column of a `primitives_T` row; a column never written is
SQL `NULL`. -/
def readColumn (row : PrimRow) (col : String) : SqlVal :=
  (lookupAssoc row.columns col).getD SqlVal.null

/-- Validate SQL-safety of a list of field names (throwing on the first
offender, as the `_initialize` loop does). -/
def validateFieldNames : List String → Except MError Unit
  | [] => .ok ()
  | f :: rest =>
      if isSqlSafe f then validateFieldNames rest
      else .error (.invalidFieldName f)

/-- Validate SQL-safety of the egg primitive names of one nested field. -/
def validateEggNames (nest : String) : List String → Except MError Unit
  | [] => .ok ()
  | f :: rest =>
      if isSqlSafe f then validateEggNames nest rest
      else .error (.invalidEggFieldName f nest)

/-- Validate the nested field names of a type, and the egg primitive
names under each (egg node names are not interpolated into SQL column
positions and are not checked, as in the source). -/
def validateNestedNames (ot : ObjectInfo) : List String → Except MError Unit
  | [] => .ok ()
  | f :: rest =>
      if isSqlSafe f then
        match validateEggNames f (nestedInfoOf ot f).primitives with
        | .error e => .error e
        | .ok _ => validateNestedNames ot rest
      else .error (.invalidFieldName f)

/-- The dynamic column list of `primitives_T` for an object type: one
column per primitive field, one per nested field (presence marker), and
one `"F.E"` column per nested-field/egg-primitive pair, in the order the
source splices them into `CREATE TABLE`. -/
def primitiveColumnNames (ot : ObjectInfo) : List String :=
  ot.primitiveFieldNames ++ ot.nestedFieldNames ++
    ot.nestedFieldNames.flatMap
      (fun f1 => (nestedInfoOf ot f1).primitives.map (fun f2 => f1 ++ "." ++ f2))

/-- Create the per-type primitive tables: validate identifiers, then add
an empty `primitives_T` table per object type. -/
def createPrimitiveTables : List (String × ObjectInfo) → State → Except MError State
  | [], s => .ok s
  | (typename, ot) :: rest, s =>
      if isSqlSafe typename then
        match validateFieldNames ot.primitiveFieldNames with
        | .error e => .error e
        | .ok _ =>
          match validateNestedNames ot ot.nestedFieldNames with
          | .error e => .error e
          | .ok _ =>
            createPrimitiveTables rest
              { s with primitives := s.primitives ++ [(typename, [])] }
      else .error (.invalidTypeName typename)

/-- `_initialize` from the source.  `CREATE TABLE IF NOT EXISTS meta` is
a no-op on the modelled state (the `meta` component already represents
"absent or empty" as `none`).  On a populated store the stored blob is
compared against the canonical fingerprint before anything else is
touched; the error is raised before any table creation, and the enclosing
transaction also rolls back, so `.error` leaves the store unchanged. -/
def initializeStore (m : Mirror) (s : State) : Except MError State :=
  let blob := configBlob m.schema m.blacklistedIds
  match s.meta with
  | some existingBlob =>
      if existingBlob == blob then .ok s
      else .error .incompatible
  | none =>
      createPrimitiveTables m.schemaInfo.objectTypes
        { s with meta := some blob, structuralTables := true }

/-- `SELECT typename FROM objects WHERE id = ?`, plucked. -/
def lookupObjectTypename (objects : List ObjRow) (id : String) : Option String :=
  (objects.find? (fun o => o.id == id)).map (fun o => o.typename)

/-- `_nontransactionallyRegisterObject` from the source. -/
def nontransactionallyRegisterObject (m : Mirror) (typename id : String) (s : State) :
    Except MError State :=
  match lookupObjectTypename s.objects id with
  | some existingTypename =>
      if existingTypename == typename then .ok s
      else .error (.inconsistentType id existingTypename typename)
  | none =>
      match lookupType m.schema typename with
      | none => .error (.unknownType typename)
      | some .scalar => .error (.nonObjectType typename)
      | some .enum => .error (.nonObjectType typename)
      | some (.union _) => .error (.nonObjectType typename)
      | some (.object _) =>
          let s1 := { s with objects := s.objects ++ [ObjRow.mk id typename none] }
          match lookupAssoc s1.primitives typename with
          | none =>
              -- `INSERT INTO primitives_T` against a missing table is a
              -- SQL error; unreachable after initialization.
              .error (.corruption "no such table")
          | some table =>
            let s2 := { s1 with
              primitives := setAssoc s1.primitives typename (table ++ [PrimRow.mk id []]) }
            match lookupObjectInfo m.schemaInfo typename with
            | none => .error (.corruption "missing SchemaInfo entry")
            | some ot =>
              let linkNames := ot.linkFieldNames ++
                ot.nestedFieldNames.flatMap
                  (fun f1 => (nestedInfoOf ot f1).nodes.map (fun p => f1 ++ "." ++ p.1))
              let s3 := { s2 with
                links := s2.links ++ linkNames.map (fun f => LinkRow.mk id f none) }
              let s4 := { s3 with
                connections := s3.connections ++
                  ot.connectionFieldNames.enum.map
                    (fun p => ConnRow.mk (s3.nextConnRowid + p.1) id p.2 none none none none),
                nextConnRowid := s3.nextConnRowid + ot.connectionFieldNames.length }
              .ok s4

/-- `registerObject` from the source: the same writes inside a
transaction (commit on success, rollback on error, which the
`Except`-valued state passing already models). -/
def registerObjectTx (m : Mirror) (typename id : String) (s : State) : Except MError State :=
  nontransactionallyRegisterObject m typename id s

/-- `_nontransactionallyRegisterNodeFieldResult` from the source:
`null` and blacklisted results map to `null`; anything else is
registered and its id returned. -/
def nontransactionallyRegisterNodeFieldResult (m : Mirror) (result : Option NodeRef) (s : State) :
    Except MError (Option String × State) :=
  match result with
  | none => .ok (none, s)
  | some r =>
      if m.blacklistedIds.contains r.id then .ok (none, s)
      else
        match nontransactionallyRegisterObject m r.typename r.id s with
        | .error e => .error e
        | .ok s1 => .ok (some r.id, s1)

/-- One connection row of a `QueryPlan`; the outer `Option` of
`endCursor` distinguishes the *unknown* marker (`undefined`, never
fetched) from a known cursor, whose inner value may be the known-null
cursor. -/
structure PlanConnection where
  objectTypename : String
  objectId : String
  fieldname : String
  endCursor : Option (Option String)
  deriving DecidableEq

/-- A `QueryPlan` from the source. -/
structure QueryPlan where
  objects : List (String × String)
  connections : List PlanConnection
  typenames : List String
  deriving DecidableEq

/-- `updates` lookup: the timestamp joined via `last_update =
updates.rowid`. -/
def lookupUpdateTime (updates : List (Nat × Int)) (rowid : Nat) : Option Int :=
  (updates.find? (fun u => u.1 == rowid)).map (fun u => u.2)

/-- The `WHERE` predicate of the objects query of `_findOutdated`:
`last_update IS NULL OR updates.time_epoch_millis < :threshold` (a failed
`LEFT OUTER JOIN` leaves the comparison NULL, hence not satisfied). -/
def objectOutdated (updates : List (Nat × Int)) (since : Int) (o : ObjRow) : Bool :=
  match o.lastUpdate with
  | none => true
  | some u =>
      match lookupUpdateTime updates u with
      | none => false
      | some time => decide (time < since)

/-- The `WHERE` predicate of the connections query of `_findOutdated`:
`has_next_page OR last_update IS NULL OR time_epoch_millis < :threshold`. -/
def connectionOutdated (updates : List (Nat × Int)) (since : Int) (c : ConnRow) : Bool :=
  c.hasNextPage == some true ||
    (match c.lastUpdate with
     | none => true
     | some u =>
         match lookupUpdateTime updates u with
         | none => false
         | some time => decide (time < since))

/-- `_findOutdated` from the source.  The connections query joins
`objects` for the typename; a never-updated connection's `endCursor` is
re-mapped to the unknown marker (`undefined`, the outer `none`). -/
def findOutdated (s : State) (since : Int) : QueryPlan :=
  { objects := (s.objects.filter (objectOutdated s.updates since)).map (fun o => (o.typename, o.id))
    connections :=
      s.connections.flatMap (fun c =>
        if connectionOutdated s.updates since c then
          (s.objects.filter (fun o => o.id == c.objectId)).map (fun o =>
            { objectTypename := o.typename
              objectId := c.objectId
              fieldname := c.fieldname
              endCursor := if c.lastUpdate.isNone then none else some c.endCursor })
        else [])
    typenames := [] }

/-- A value in GraphQL argument position (`Queries.build.literal` /
`Queries.build.list`). -/
inductive QVal where
  | str (s : String)
  | int (n : Int)
  | null
  | list (xs : List QVal)

/-- A GraphQL selection tree (the subset of the query builder's
constructors that the mirror uses). -/
inductive Selection where
  | field (name : String) (args : List (String × QVal)) (children : List Selection)
  | inlineFrag (typename : String) (children : List Selection)
  | aliased (name : String) (sel : Selection)

/-- `_queryShallow` from the source. -/
def queryShallow (m : Mirror) (typename : String) : Except MError (List Selection) :=
  match lookupType m.schema typename with
  | none => .error (.unknownType typename)
  | some .scalar => .error (.scalarSelection typename)
  | some .enum => .error (.enumSelection typename)
  | some (.object _) => .ok [.field "__typename" [] [], .field "id" [] []]
  | some (.union _) =>
      match lookupAssoc m.schemaInfo.unionTypes typename with
      | none => .error (.corruption "missing union info")
      | some clauses =>
          .ok (.field "__typename" [] [] ::
            clauses.map (fun c => .inlineFrag c [.field "id" [] []]))

/-- `_queryConnection` from the source: validate the typename and field,
then build the connection field with `first: pageSize` always, and
`after: endCursor` exactly when the cursor is not the unknown marker. -/
def queryConnection (m : Mirror) (typename fieldname : String)
    (endCursor : Option (Option String)) (connectionPageSize : Int) :
    Except MError (List Selection) :=
  match lookupType m.schema typename with
  | none => .error (.unknownType typename)
  | some .scalar => .error (.connectionOnNonObject typename)
  | some .enum => .error (.connectionOnNonObject typename)
  | some (.union _) => .error (.connectionOnNonObject typename)
  | some (.object _) =>
      match lookupObjectInfo m.schemaInfo typename with
      | none => .error (.corruption "missing SchemaInfo entry")
      | some ot =>
          match lookupAssoc ot.fields fieldname with
          | none => .error (.noSuchField typename fieldname)
          | some (.connection elementType) =>
              match queryShallow m elementType with
              | .error e => .error e
              | .ok shallow =>
                  let connectionArguments : List (String × QVal) :=
                    [("first", QVal.int connectionPageSize)] ++
                      (match endCursor with
                       | none => []
                       | some c =>
                           [("after", match c with
                             | none => QVal.null
                             | some cs => QVal.str cs)])
                  .ok [Selection.field fieldname connectionArguments
                    [ .field "totalCount" [] [],
                      .field "pageInfo" [] [.field "endCursor" [] [], .field "hasNextPage" [] []],
                      .field "nodes" [] shallow ]]
          | some _ => .error (.nonConnectionField typename fieldname)

/-- `SELECT rowid FROM connections WHERE object_id = ? AND fieldname = ?`,
plucked (`UNIQUE(object_id, fieldname)` makes at most one row). -/
def findConnectionRowid (connections : List ConnRow) (objectId fieldname : String) : Option Nat :=
  (connections.find? (fun c => c.objectId == objectId && c.fieldname == fieldname)).map
    (fun c => c.rowid)

/-- The `ConnectionFieldResult` of a connection query response. -/
structure ConnectionFieldResult where
  totalCount : Int
  hasNextPage : Bool
  endCursor : Option String
  nodes : List (Option NodeRef)
  deriving DecidableEq

/-- The `UPDATE connections SET last_update, total_count, has_next_page,
end_cursor WHERE rowid = :connectionId` of the connection updater. -/
def updateConnRow (cid : Nat) (updateId : Nat) (q : ConnectionFieldResult) (c : ConnRow) : ConnRow :=
  if c.rowid == cid then
    { c with lastUpdate := some updateId, totalCount := some q.totalCount,
             hasNextPage := some q.hasNextPage, endCursor := q.endCursor }
  else c

/-- `SELECT IFNULL(MAX(idx), 0) + 1 FROM connection_entries WHERE
connection_id = :connectionId`. -/
def nextIdx (entries : List EntryRow) (cid : Nat) : Int :=
  (((entries.filter (fun e => e.connectionId == cid)).map (fun e => e.idx)).max?.getD 0) + 1

/-- The per-node loop body of the connection updater: register the node
field result, then insert the `connection_entries` row at the running
index. -/
def addConnectionEntry (m : Mirror) (cid : Nat) (st : State × Int) (node : Option NodeRef) :
    Except MError (State × Int) :=
  match nontransactionallyRegisterNodeFieldResult m node st.1 with
  | .error e => .error e
  | .ok (childId, s1) =>
      .ok ({ s1 with
        connectionEntries := s1.connectionEntries ++ [EntryRow.mk cid st.2 childId] }, st.2 + 1)

/-- `_nontransactionallyUpdateConnection` from the source. -/
def nontransactionallyUpdateConnection (m : Mirror) (updateId : Nat)
    (objectId fieldname : String) (q : ConnectionFieldResult) (s : State) :
    Except MError State :=
  match findConnectionRowid s.connections objectId fieldname with
  | none => .error (.noSuchConnection objectId fieldname)
  | some cid =>
      let s1 := { s with connections := s.connections.map (updateConnRow cid updateId q) }
      match q.nodes.foldlM (addConnectionEntry m cid) (s1, nextIdx s1.connectionEntries cid) with
      | .error e => .error e
      | .ok (s2, _) => .ok s2

/-- One record of an `OwnDataUpdateResult`: `__typename`, `id`, and the
other non-connection fields (an absent key is JavaScript `undefined`). -/
structure OwnDataRecord where
  typename : String
  id : String
  fields : List (String × FieldVal)
  deriving DecidableEq

/-- `entry[fieldname]` on an own-data record. -/
def lookupField (r : OwnDataRecord) (f : String) : Option FieldVal :=
  lookupAssoc r.fields f

/-- `topLevelNested[eggFieldname]`: property access on a (non-null)
nested field value.  On a shallow node object the two declared
properties are visible; property access on a primitive yields
`undefined`. -/
def eggLookup : FieldVal → String → Option EggVal
  | .nestedObj eggs, f => lookupAssoc eggs f
  | .nodeRef t i, f =>
      if f == "__typename" then some (.str t)
      else if f == "id" then some (.str i)
      else none
  | .null, _ => none
  | .str _, _ => none
  | .num _, _ => none
  | .bool _, _ => none

/-- `SELECT COUNT(1) FROM objects WHERE id = ?`. -/
def countObjectsWithId (objects : List ObjRow) (id : String) : Nat :=
  (objects.filter (fun o => o.id == id)).length

/-- The validation loop of `_nontransactionallyUpdateOwnData`: every id
must exist and every record must carry the common typename. -/
def validateOwnDataBatch (typename : String) (batch : List OwnDataRecord) (s : State) :
    Except MError Unit :=
  match batch with
  | [] => .ok ()
  | entry :: rest =>
      if countObjectsWithId s.objects entry.id == 0 then
        .error (.nonexistentNode entry.id)
      else if entry.typename != typename then
        .error (.inconsistentTypenames typename entry.typename)
      else validateOwnDataBatch typename rest s

/-- `UPDATE objects SET last_update = :updateId WHERE id = :objectId`,
wrapped by `_makeSingleUpdateFunction` (exactly one changed row). -/
def setLastUpdateStep (updateId : Nat) (s : State) (entry : OwnDataRecord) :
    Except MError State :=
  if countObjectsWithId s.objects entry.id == 1 then
    .ok { s with objects := s.objects.map (fun o =>
      if o.id == entry.id then { o with lastUpdate := some updateId } else o) }
  else .error .badChangeCount

/-- Add the top-level primitive fields of a record to the parameter
dictionary (a missing field is a hard error). -/
def addTopPrimitives (typename : String) (entry : OwnDataRecord) :
    List String → List (String × SqlVal) → Except MError (List (String × SqlVal))
  | [], dict => .ok dict
  | f :: rest, dict =>
      match lookupField entry f with
      | none => .error (.missingPrimitive f entry.id typename)
      | some v =>
          addTopPrimitives typename entry rest
            (dict ++ [(parameterNameForTopLevelField f, SqlVal.text (jsonOfField v))])

/-- Add the egg primitive fields of one nested field to the parameter
dictionary; a null nested value contributes JSON `null` for every egg,
while a present nested value must carry every declared egg. -/
def addEggPrimitives (typename nest : String) (entry : OwnDataRecord) (v : FieldVal) :
    List String → List (String × SqlVal) → Except MError (List (String × SqlVal))
  | [], dict => .ok dict
  | f2 :: rest, dict =>
      let eggValue : Option EggVal := if v == .null then some .null else eggLookup v f2
      match eggValue with
      | none => .error (.missingNestedEgg nest f2 entry.id typename)
      | some ev =>
          addEggPrimitives typename nest entry v rest
            (dict ++ [(parameterNameForNestedField nest f2, SqlVal.text (jsonOfEgg ev))])

/-- Add the nested fields of a record to the parameter dictionary: the
presence marker (`0` when the group was null, else `1`) plus the egg
primitives. -/
def addNestedPrimitives (typename : String) (entry : OwnDataRecord) (ot : ObjectInfo) :
    List String → List (String × SqlVal) → Except MError (List (String × SqlVal))
  | [], dict => .ok dict
  | f :: rest, dict =>
      match lookupField entry f with
      | none => .error (.missingNested f entry.id typename)
      | some v =>
          let dict1 := dict ++
            [(parameterNameForTopLevelField f, SqlVal.int (if v == .null then 0 else 1))]
          match addEggPrimitives typename f entry v (nestedInfoOf ot f).primitives dict1 with
          | .error e => .error e
          | .ok dict2 => addNestedPrimitives typename entry ot rest dict2

/-- The `(column, parameter)` pairs of the one `UPDATE primitives_T SET
...` statement: top-level primitives, nested presence markers, then the
per-nested egg primitive columns. -/
def primitiveUpdateColumns (ot : ObjectInfo) : List (String × String) :=
  ot.primitiveFieldNames.map (fun f => (f, parameterNameForTopLevelField f)) ++
  ot.nestedFieldNames.map (fun f => (f, parameterNameForTopLevelField f)) ++
  ot.nestedFieldNames.flatMap (fun f1 =>
    (nestedInfoOf ot f1).primitives.map
      (fun f2 => (f1 ++ "." ++ f2, parameterNameForNestedField f1 f2)))

/-- Apply the SET clauses of the primitives statement to one row, reading
each bound parameter from the dictionary (a missing named parameter is a
binding error). -/
def applyColumnUpdates (dict : List (String × SqlVal)) :
    List (String × String) → PrimRow → Except MError PrimRow
  | [], row => .ok row
  | (col, param) :: rest, row =>
      match lookupAssoc dict param with
      | none => .error (.missingParameter param)
      | some v => applyColumnUpdates dict rest { row with columns := setAssoc row.columns col v }

/-- Execute the primitives `UPDATE` for one record: a statement with zero
SET clauses is skipped entirely (the source installs a no-op), otherwise
the single-update wrapper demands exactly one matching row. -/
def runPrimitivesUpdate (typename : String) (cols : List (String × String))
    (dict : List (String × SqlVal)) (s : State) : Except MError State :=
  if cols.isEmpty then .ok s
  else
    match lookupAssoc dict "id" with
    | some (SqlVal.text theId) =>
        match lookupAssoc s.primitives typename with
        | none => .error (.corruption "no such table")
        | some table =>
            match table.mapM (fun r =>
              if r.id == theId then applyColumnUpdates dict cols r else .ok r) with
            | .error e => .error e
            | .ok table2 =>
                if (table.filter (fun r => r.id == theId)).length == 1 then
                  .ok { s with primitives := setAssoc s.primitives typename table2 }
                else .error .badChangeCount
    | _ => .error (.missingParameter "id")

/-- The primitives pass for one record: build the parameter dictionary
(with its missing-field checks), then run the update. -/
def ownDataPrimitivesStep (typename : String) (ot : ObjectInfo) (s : State)
    (entry : OwnDataRecord) : Except MError State :=
  match addTopPrimitives typename entry ot.primitiveFieldNames
      [("id", SqlVal.text entry.id)] with
  | .error e => .error e
  | .ok dict1 =>
      match addNestedPrimitives typename entry ot ot.nestedFieldNames dict1 with
      | .error e => .error e
      | .ok dict => runPrimitivesUpdate typename (primitiveUpdateColumns ot) dict s

/-- `UPDATE links SET child_id = :childId WHERE parent_id = :parentId AND
fieldname = :fieldname`, wrapped by `_makeSingleUpdateFunction`. -/
def updateLinkRow (parentId fieldname : String) (childId : Option String) (s : State) :
    Except MError State :=
  if (s.links.filter (fun l => l.parentId == parentId && l.fieldname == fieldname)).length == 1 then
    .ok { s with links := s.links.map (fun l =>
      if l.parentId == parentId && l.fieldname == fieldname then
        { l with childId := childId }
      else l) }
  else .error .badChangeCount

/-- Interpret a field value in node position as a `NodeFieldResult`.
Out-of-contract shapes make the source register an object whose
`__typename`/`id` read as `undefined`, failing the schema lookup. -/
def fieldAsNodeResult : FieldVal → Except MError (Option NodeRef)
  | .null => .ok none
  | .nodeRef t i => .ok (some (NodeRef.mk t i))
  | _ => .error (.unknownType "undefined")

/-- As `fieldAsNodeResult`, for egg values. -/
def eggAsNodeResult : EggVal → Except MError (Option NodeRef)
  | .null => .ok none
  | .nodeRef t i => .ok (some (NodeRef.mk t i))
  | _ => .error (.unknownType "undefined")

/-- The top-level link loop of the links pass (a missing node reference
is a hard error). -/
def ownDataTopLinks (m : Mirror) (typename : String) (entry : OwnDataRecord) :
    List String → State → Except MError State
  | [], s => .ok s
  | f :: rest, s =>
      match lookupField entry f with
      | none => .error (.missingNodeRef f entry.id typename)
      | some v =>
          match fieldAsNodeResult v with
          | .error e => .error e
          | .ok link =>
              match nontransactionallyRegisterNodeFieldResult m link s with
              | .error e => .error e
              | .ok (childId, s1) =>
                  match updateLinkRow entry.id f childId s1 with
                  | .error e => .error e
                  | .ok s2 => ownDataTopLinks m typename entry rest s2

/-- The egg node loop of one nested field in the links pass.  The child
value is `topLevelNested == null ? null : topLevelNested[egg]` — an
absent nested value also compares `== null` in JavaScript, though the
primitives pass has already rejected that case. -/
def ownDataNestedLinksEggs (m : Mirror) (typename nest : String) (entry : OwnDataRecord)
    (nestValue : Option FieldVal) :
    List (String × String) → State → Except MError State
  | [], s => .ok s
  | (f2, _elementType) :: rest, s =>
      let childValue : Option EggVal :=
        match nestValue with
        | none => some .null
        | some .null => some .null
        | some v => eggLookup v f2
      match childValue with
      | none => .error (.missingNestedEgg nest f2 entry.id typename)
      | some ev =>
          match eggAsNodeResult ev with
          | .error e => .error e
          | .ok link =>
              match nontransactionallyRegisterNodeFieldResult m link s with
              | .error e => .error e
              | .ok (childId, s1) =>
                  match updateLinkRow entry.id (nest ++ "." ++ f2) childId s1 with
                  | .error e => .error e
                  | .ok s2 => ownDataNestedLinksEggs m typename nest entry nestValue rest s2

/-- The nested link loop of the links pass. -/
def ownDataNestedLinks (m : Mirror) (typename : String) (ot : ObjectInfo)
    (entry : OwnDataRecord) :
    List String → State → Except MError State
  | [], s => .ok s
  | f :: rest, s =>
      match ownDataNestedLinksEggs m typename f entry (lookupField entry f)
          (nestedInfoOf ot f).nodes s with
      | .error e => .error e
      | .ok s1 => ownDataNestedLinks m typename ot entry rest s1

/-- The links pass for one record. -/
def ownDataLinksStep (m : Mirror) (typename : String) (ot : ObjectInfo) (s : State)
    (entry : OwnDataRecord) : Except MError State :=
  match ownDataTopLinks m typename entry ot.linkFieldNames s with
  | .error e => .error e
  | .ok s1 => ownDataNestedLinks m typename ot entry ot.nestedFieldNames s1

/-- `_nontransactionallyUpdateOwnData` from the source: an empty batch
returns immediately; otherwise the common typename is validated, every
record is checked against `objects`, and the last-update, primitives, and
links passes run in order. -/
def nontransactionallyUpdateOwnData (m : Mirror) (updateId : Nat)
    (queryResult : List OwnDataRecord) (s : State) : Except MError State :=
  match queryResult with
  | [] => .ok s
  | first :: _ =>
      let typename := first.typename
      match lookupType m.schema typename with
      | none => .error (.unknownType typename)
      | some .scalar => .error (.nonObjectType typename)
      | some .enum => .error (.nonObjectType typename)
      | some (.union _) => .error (.nonObjectType typename)
      | some (.object _) =>
          match lookupObjectInfo m.schemaInfo typename with
          | none => .error (.corruption "missing SchemaInfo entry")
          | some ot =>
              match validateOwnDataBatch typename queryResult s with
              | .error e => .error e
              | .ok _ =>
                  match queryResult.foldlM (setLastUpdateStep updateId) s with
                  | .error e => .error e
                  | .ok s1 =>
                      match queryResult.foldlM (ownDataPrimitivesStep typename ot) s1 with
                      | .error e => .error e
                      | .ok s2 => queryResult.foldlM (ownDataLinksStep m typename ot) s2

/-- An extracted egg slot in the flattened representation of the
extracted graph: a decoded primitive (kept in its stored JSON text form)
or a node reference by id (`none` is the null reference). -/
inductive ExtEgg where
  | prim (raw : String)
  | ref (child : Option String)
  deriving DecidableEq

/-- An extracted field slot: primitive, node reference, absent nested
group, present nested group, or connection list.  References are by
object id; the source's in-memory record graph (possibly cyclic) is the
unfolding of these ids through the accompanying object map. -/
inductive ExtVal where
  | prim (raw : String)
  | ref (child : Option String)
  | nestedNull
  | nestedObj (eggs : List (String × ExtEgg))
  | conn (entries : List (Option String))
  deriving DecidableEq

/-- One extracted object record. -/
structure ExtObj where
  id : String
  typename : String
  fields : List (String × ExtVal)
  deriving DecidableEq

/-- The result of `extract`: the root id plus the map of all extracted
objects (`allObjects` in the source). -/
structure ExtractedGraph where
  root : String
  objects : List (String × ExtObj)
  deriving DecidableEq

/-- The `direct_dependencies` relation of the extractor's recursive CTE:
link edges with non-NULL child, and connection-entry edges with non-NULL
child (joining `connections` to `connection_entries` on rowid). -/
def directDependencies (s : State) : List (String × String) :=
  (s.links.filterMap (fun l => l.childId.map (fun c => (l.parentId, c)))) ++
  (s.connections.flatMap (fun c =>
    s.connectionEntries.filterMap (fun e =>
      if e.connectionId == c.rowid then e.childId.map (fun ch => (c.objectId, ch)) else none)))

/-- One round of the transitive closure: add every child one step away
from the current set (new elements only, deduplicated, keeping the set
repetition-free). -/
def stepClosure (deps : List (String × String)) (S : List String) : List String :=
  S ++ (deps.filterMap (fun pc =>
    if S.contains pc.1 && !S.contains pc.2 then some pc.2 else none)).dedup

/-- The `transitive_dependencies` set of the extractor's recursive CTE:
the least fixed point of reachability from the root, reached within
`deps.length + 1` rounds. -/
def transitiveDependencies (deps : List (String × String)) (rootId : String) : List String :=
  Nat.iterate (stepClosure deps) (deps.length + 1) [rootId]

/-- The temporary table of the extractor: the `objects` rows whose id
lies in the transitive dependencies of the root. -/
def computeTemp (s : State) (rootId : String) : List ObjRow :=
  let cl := transitiveDependencies (directDependencies s) rootId
  s.objects.filter (fun o => cl.contains o.id)

/-- The freshness check of `extract`: the first never-updated object of
the temp table (missing own data), else the first never-updated
connection attached to an object of the temp table. -/
def freshnessOffender (s : State) (temp : List ObjRow) : Option (String × Option String) :=
  match temp.find? (fun o => o.lastUpdate.isNone) with
  | some o => some (o.id, none)
  | none =>
      match temp.findSome? (fun o =>
        (s.connections.find? (fun c => c.objectId == o.id && c.lastUpdate.isNone)).map
          (fun c => (o.id, c.fieldname))) with
      | some p => some (p.1, some p.2)
      | none => none

/-- Decode one non-marker column value as the extractor's generic column
loop does: stored text was produced by `JSON.stringify` and is kept in
encoded form; a SQL NULL reads back as JavaScript `null` (the code path
feeds `null` to `JSON.parse`, which coerces it to the string "null");
an integer outside the markers stringifies. -/
def decodeRaw : SqlVal → String
  | .text raw => raw
  | .null => "null"
  | .int n => toString n

/-- Initialize the nested slots of a record from the presence markers
(anything outside 0 and 1 is corruption). -/
def buildMarkers (row : PrimRow) :
    List String → List (String × ExtVal) → Except MError (List (String × ExtVal))
  | [], fields => .ok fields
  | f :: rest, fields =>
      match readColumn row f with
      | .int 0 => buildMarkers row rest (setAssoc fields f .nestedNull)
      | .int 1 => buildMarkers row rest (setAssoc fields f (.nestedObj []))
      | _ => .error (.corruption "nested marker")

/-- Route one decoded column into the record by splitting the column
name on `"."`: one part is a top-level value, two parts an egg value
under a present nested group (silently dropped under an absent one). -/
def routeColumn (fields : List (String × ExtVal)) (key : String) (value : String) :
    Except MError (List (String × ExtVal)) :=
  match key.splitOn "." with
  | [k] => .ok (setAssoc fields k (.prim value))
  | [f1, f2] =>
      match lookupAssoc fields f1 with
      | some .nestedNull => .ok fields
      | some (.nestedObj eggs) =>
          .ok (setAssoc fields f1 (.nestedObj (setAssoc eggs f2 (.prim value))))
      | _ => .error (.corruption "egg column without nested group")
  | _ => .error (.corruption "bad field name")

/-- The generic column loop of the extractor: marker values 0 and 1 are
skipped (already processed); every other value is decoded and routed. -/
def buildColumns (row : PrimRow) :
    List String → List (String × ExtVal) → Except MError (List (String × ExtVal))
  | [], fields => .ok fields
  | key :: rest, fields =>
      match readColumn row key with
      | .int 0 => buildColumns row rest fields
      | .int 1 => buildColumns row rest fields
      | v =>
          match routeColumn fields key (decodeRaw v) with
          | .error e => .error e
          | .ok fields1 => buildColumns row rest fields1

/-- Build the in-memory record for one `primitives_T` row. -/
def buildOneObject (ot : ObjectInfo) (typename : String) (row : PrimRow) :
    Except MError ExtObj :=
  match buildMarkers row ot.nestedFieldNames [] with
  | .error e => .error e
  | .ok fields0 =>
      match buildColumns row (primitiveColumnNames ot) fields0 with
      | .error e => .error e
      | .ok fields => .ok (ExtObj.mk row.id typename fields)

/-- `SELECT DISTINCT typename FROM temp`. -/
def typenamesOf (temp : List ObjRow) : List String :=
  (temp.map (fun o => o.typename)).dedup

/-- The per-typename materialization loop of the extractor. -/
def buildObjectsForType (info : SchemaInfo) (s : State) (tempIds : List String)
    (acc : List (String × ExtObj)) (typename : String) :
    Except MError (List (String × ExtObj)) :=
  match lookupObjectInfo info typename with
  | none => .error (.corruption "unknown object type")
  | some ot =>
      match lookupAssoc s.primitives typename with
      | none => .error (.corruption "no such table")
      | some table =>
          (table.filter (fun r => tempIds.contains r.id)).foldlM (fun acc row =>
            match buildOneObject ot typename row with
            | .error e => .error e
            | .ok obj => .ok (setAssoc acc row.id obj)) acc

/-- Resolve a child id through the object map (`NullUtil.get` on the
`allObjects` lookup; a missing object is an invariant violation). -/
def resolveChild (objs : List (String × ExtObj)) (childId : Option String) :
    Except MError (Option String) :=
  match childId with
  | none => .ok none
  | some c =>
      match lookupAssoc objs c with
      | none => .error (.corruption "missing object in map")
      | some _ => .ok (some c)

/-- The link pass of the extractor, for one `links` row joined against
the temp table. -/
def applyLinkRow (objs : List (String × ExtObj)) (l : LinkRow) :
    Except MError (List (String × ExtObj)) :=
  match lookupAssoc objs l.parentId with
  | none => .error (.corruption "missing object in map")
  | some parent =>
      match resolveChild objs l.childId with
      | .error e => .error e
      | .ok child =>
          match l.fieldname.splitOn "." with
          | [f] =>
              .ok (setAssoc objs l.parentId
                { parent with fields := setAssoc parent.fields f (.ref child) })
          | [f1, f2] =>
              match lookupAssoc parent.fields f1 with
              | some .nestedNull => .ok objs
              | some (.nestedObj eggs) =>
                  let fs := setAssoc parent.fields f1 (.nestedObj (setAssoc eggs f2 (.ref child)))
                  .ok (setAssoc objs l.parentId { parent with fields := fs })
              | _ => .error (.corruption "egg link without nested group")
          | _ => .error (.corruption "bad link name")

/-- The link pass of the extractor. -/
def applyLinks (s : State) (tempIds : List String) (objs : List (String × ExtObj)) :
    Except MError (List (String × ExtObj)) :=
  (s.links.filter (fun l => tempIds.contains l.parentId)).foldlM applyLinkRow objs

/-- The rows of the extractor's ordered connection query: connections of
temp objects ordered by `(object_id, fieldname)`, each followed by its
entries ordered by `idx` (`none` in the last component marks the
contentless row a LEFT JOIN produces for an empty connection). -/
def connectionDataRows (s : State) (tempIds : List String) :
    List (String × String × Option (Option String)) :=
  let conns := (s.connections.filter (fun c => tempIds.contains c.objectId)).mergeSort
    (fun a b => decide (a.objectId < b.objectId) ||
       (a.objectId == b.objectId && decide (a.fieldname ≤ b.fieldname)))
  conns.flatMap (fun c =>
    let es := (s.connectionEntries.filter (fun e => e.connectionId == c.rowid)).mergeSort
      (fun a b => decide (a.idx ≤ b.idx))
    match es with
    | [] => [(c.objectId, c.fieldname, none)]
    | es => es.map (fun e => (c.objectId, c.fieldname, some e.childId)))

/-- The connection pass of the extractor, for one ordered row: install
the empty list on first sight of the connection, then append the
resolved child when the row has contents. -/
def applyConnectionRow (objs : List (String × ExtObj))
    (row : String × String × Option (Option String)) :
    Except MError (List (String × ExtObj)) :=
  match lookupAssoc objs row.1 with
  | none => .error (.corruption "missing object in map")
  | some parent0 =>
      let parent :=
        if (lookupAssoc parent0.fields row.2.1).isNone then
          { parent0 with fields := setAssoc parent0.fields row.2.1 (.conn []) }
        else parent0
      match row.2.2 with
      | none => .ok (setAssoc objs row.1 parent)
      | some childId =>
          match resolveChild objs childId with
          | .error e => .error e
          | .ok child =>
              match lookupAssoc parent.fields row.2.1 with
              | some (.conn entries) =>
                  let fs := setAssoc parent.fields row.2.1 (.conn (entries ++ [child]))
                  .ok (setAssoc objs row.1 { parent with fields := fs })
              | _ => .error (.corruption "push on non-connection value")

/-- The connection pass of the extractor. -/
def applyConnections (s : State) (tempIds : List String) (objs : List (String × ExtObj)) :
    Except MError (List (String × ExtObj)) :=
  (connectionDataRows s tempIds).foldlM applyConnectionRow objs

/-- `extract` from the source.  (The temporary-table naming dance has no
bearing on the result and is not part of the state model; the recursive
CTE is the `transitiveDependencies` fixed point.) -/
def extract (m : Mirror) (s : State) (rootId : String) : Except MError ExtractedGraph :=
  let temp := computeTemp s rootId
  let tempIds := temp.map (fun o => o.id)
  match freshnessOffender s temp with
  | some p => .error (.notFetched rootId p.1 p.2)
  | none =>
      match (typenamesOf temp).foldlM (buildObjectsForType m.schemaInfo s tempIds) [] with
      | .error e => .error e
      | .ok objs0 =>
          match applyLinks s tempIds objs0 with
          | .error e => .error e
          | .ok objs1 =>
              match applyConnections s tempIds objs1 with
              | .error e => .error e
              | .ok objs =>
                  match lookupAssoc objs rootId with
                  | none => .error (.noSuchObject rootId)
                  | some _ => .ok (ExtractedGraph.mk rootId objs)

/-- One mirror write operation, for stating trace-level invariants over
"every sequence of ingestions". -/
inductive Op where
  | register (typename id : String)
  | updateOwnData (updateId : Nat) (batch : List OwnDataRecord)
  | updateConnection (updateId : Nat) (objectId fieldname : String) (q : ConnectionFieldResult)
  deriving DecidableEq

/-- Apply one operation. -/
def applyOp (m : Mirror) (s : State) : Op → Except MError State
  | .register t i => nontransactionallyRegisterObject m t i s
  | .updateOwnData u batch => nontransactionallyUpdateOwnData m u batch s
  | .updateConnection u oid f q => nontransactionallyUpdateConnection m u oid f q s

/-- Run a sequence of operations. -/
def runOps (m : Mirror) (ops : List Op) (s : State) : Except MError State :=
  ops.foldlM (applyOp m) s

/-- The empty database handed to the constructor. -/
def emptyState : State :=
  State.mk none false [] [] [] [] [] [] 1

/-- The node reference held by an extracted egg slot, if any. -/
def refOfEgg : ExtEgg → Option String
  | .ref (some c) => some c
  | _ => none

/-- All node-reference ids occurring in one extracted field value:
a top-level node reference, the nested-egg node references, or the
non-null connection entries. -/
def refsOfExtVal : ExtVal → List String
  | .ref (some c) => [c]
  | .nestedObj eggs => eggs.filterMap (fun p => refOfEgg p.2)
  | .conn entries => entries.filterMap (fun c => c)
  | _ => []

/-- All node-reference ids of one extracted object. -/
def refsOfObj (o : ExtObj) : List String :=
  o.fields.flatMap (fun q => refsOfExtVal q.2)

/-- All node-reference ids occurring anywhere in an extracted graph. -/
def collectRefs (objs : List (String × ExtObj)) : List String :=
  objs.flatMap (fun p => refsOfObj p.2)

/-- No blacklisted id is stored as a child in `links` or in
`connection_entries`. -/
def NoBlacklistedChildren (m : Mirror) (s : State) : Prop :=
  (∀ l ∈ s.links, ∀ x, l.childId = some x → x ∉ m.blacklistedIds) ∧
  (∀ e ∈ s.connectionEntries, ∀ x, e.childId = some x → x ∉ m.blacklistedIds)

/-- Every reference in a partial extraction result is backed by a stored
`links` child or `connection_entries` child. -/
def RefsJustified (s : State) (objs : List (String × ExtObj)) : Prop :=
  ∀ x ∈ collectRefs objs,
    (∃ l ∈ s.links, l.childId = some x) ∨ (∃ e ∈ s.connectionEntries, e.childId = some x)

/-- The value of a decimal digit character. -/
def decDigitVal (c : Char) : Nat := c.toNat - '0'.toNat

/-- Horner evaluation of a most-significant-first digit list. -/
def decValAux (acc : Nat) : List Char → Nat
  | [] => acc
  | c :: cs => decValAux (acc * 10 + decDigitVal c) cs

/-- A small example schema used by concrete witnesses: issues with a
primitive title, a node-shaped author, a comments connection, and a
nested signature with a primitive date egg and a node-shaped editor
egg. -/
def exampleSchema : SchemaDef :=
  [("Issue", .object [("id", .idField), ("title", .primitive),
      ("author", .node "User" true), ("comments", .connection "User"),
      ("meta", .nested [("date", .primitive), ("editor", .node "User" true)])]),
   ("User", .object [("id", .idField), ("login", .primitive)])]

/-- The compiled `SchemaInfo` of `exampleSchema`. -/
def exampleInfo : SchemaInfo :=
  SchemaInfo.mk
    [("Issue", ObjectInfo.mk
        [("id", .idField), ("title", .primitive), ("author", .node "User" true),
         ("comments", .connection "User"),
         ("meta", .nested [("date", .primitive), ("editor", .node "User" true)])]
        ["title"] ["author"] ["comments"] ["meta"]
        [("meta", NestedInfo.mk ["date"] [("editor", "User")])]),
     ("User", ObjectInfo.mk [("id", .idField), ("login", .primitive)] ["login"] [] [] [] [])]
    []

/-- An example mirror over `exampleSchema` blacklisting the id "bad1". -/
def exampleMirror : Mirror := Mirror.mk exampleSchema exampleInfo ["bad1"]

/-- The id that `_nontransactionallyRegisterNodeFieldResult` stores for a
node field result: `null` and blacklisted results sever to `null`, any
other result keeps its id (the returned id does not depend on the
store). -/
def childIdOf (m : Mirror) (node : Option NodeRef) : Option String :=
  match node with
  | none => none
  | some r => if m.blacklistedIds.contains r.id then none else some r.id

/-- The entries of one connection, in table order. -/
def entriesFor (s : State) (cid : Nat) : List EntryRow :=
  s.connectionEntries.filter (fun e => e.connectionId == cid)

/-- The `connection_entries` rows that ingesting one page appends:
consecutive indices from `i`, children in response order. -/
def pageEntries (m : Mirror) (cid : Nat) : Int → List (Option NodeRef) → List EntryRow
  | _, [] => []
  | i, n :: ns => EntryRow.mk cid i (childIdOf m n) :: pageEntries m cid (i + 1) ns

/-- Consecutive integers starting at `start`. -/
def consecutiveFrom (start : Int) : Nat → List Int
  | 0 => []
  | k + 1 => start :: consecutiveFrom (start + 1) k

/-- Ingest a sequence of pages for one connection, each under its own
update id. -/
def ingestPages (m : Mirror) (oid f : String) (pages : List (Nat × ConnectionFieldResult))
    (s : State) : Except MError State :=
  pages.foldlM (fun s p => nontransactionallyUpdateConnection m p.1 oid f p.2 s) s

/-- Transitive reachability from a root via non-NULL link children and
non-NULL connection-entry children — the relation whose closure the
extractor's recursive CTE computes. -/
inductive Reachable (s : State) (root : String) : String → Prop where
  | refl : Reachable s root root
  | link (p c : String) (l : LinkRow) :
      Reachable s root p → l ∈ s.links → l.parentId = p → l.childId = some c →
      Reachable s root c
  | conn (p c : String) (cr : ConnRow) (e : EntryRow) :
      Reachable s root p → cr ∈ s.connections → cr.objectId = p →
      e ∈ s.connectionEntries → e.connectionId = cr.rowid → e.childId = some c →
      Reachable s root c

/-! ## Helper lemmas: decimal representations and parameter names -/

theorem natToDecAux_acc (n : Nat) : ∀ acc, natToDecAux n acc = natToDecAux n [] ++ acc := by
  induction n using Nat.strong_induction_on with
  | _ n ih =>
    intro acc
    match n with
    | 0 => simp [natToDecAux]
    | k + 1 =>
      have hlt : (k + 1) / 10 < k + 1 := Nat.div_lt_self (Nat.succ_pos k) (by omega)
      rw [natToDecAux, natToDecAux]
      rw [ih ((k + 1) / 10) hlt (Nat.digitChar ((k + 1) % 10) :: acc),
          ih ((k + 1) / 10) hlt [Nat.digitChar ((k + 1) % 10)]]
      simp

theorem digitChar_ne_underscore (m : Nat) (h : m < 10) : Nat.digitChar m ≠ '_' := by
  interval_cases m <;> decide

theorem natToDecAux_no_underscore (n : Nat) : '_' ∉ natToDecAux n [] := by
  induction n using Nat.strong_induction_on with
  | _ n ih =>
    match n with
    | 0 => simp [natToDecAux]
    | k + 1 =>
      have hlt : (k + 1) / 10 < k + 1 := Nat.div_lt_self (Nat.succ_pos k) (by omega)
      rw [natToDecAux, natToDecAux_acc]
      intro hmem
      rcases List.mem_append.mp hmem with h | h
      · exact ih _ hlt h
      · simp only [List.mem_singleton] at h
        exact digitChar_ne_underscore _ (Nat.mod_lt _ (by omega)) h.symm

theorem natToDec_no_underscore (n : Nat) : '_' ∉ (natToDec n).data := by
  by_cases h : n = 0
  · subst h
    have h0 : natToDec 0 = "0" := by simp [natToDec]
    rw [h0]
    decide
  · simp only [natToDec, if_neg h]
    exact natToDecAux_no_underscore n



theorem decValAux_append (l1 : List Char) : ∀ (acc : Nat) (l2 : List Char),
    decValAux acc (l1 ++ l2) = decValAux (decValAux acc l1) l2 := by
  induction l1 with
  | nil => intro acc l2; rfl
  | cons c cs ih =>
      intro acc l2
      show decValAux (acc * 10 + decDigitVal c) (cs ++ l2) =
        decValAux (decValAux (acc * 10 + decDigitVal c) cs) l2
      exact ih _ _

theorem digitChar_val (m : Nat) (h : m < 10) : decDigitVal (Nat.digitChar m) = m := by
  interval_cases m <;> decide

theorem decValAux_natToDecAux (n : Nat) : ∀ acc,
    decValAux acc (natToDecAux n []) = acc * 10 ^ (natToDecAux n []).length + n := by
  induction n using Nat.strong_induction_on with
  | _ n ih =>
    intro acc
    match n with
    | 0 =>
      rw [natToDecAux]
      show acc = acc * 10 ^ ([] : List Char).length + 0
      simp
    | k + 1 =>
      have hlt : (k + 1) / 10 < k + 1 := Nat.div_lt_self (Nat.succ_pos k) (by omega)
      rw [natToDecAux, natToDecAux_acc, decValAux_append, ih ((k + 1) / 10) hlt acc]
      have hr : decValAux (acc * 10 ^ (natToDecAux ((k + 1) / 10) []).length + (k + 1) / 10)
          [Nat.digitChar ((k + 1) % 10)] =
          (acc * 10 ^ (natToDecAux ((k + 1) / 10) []).length + (k + 1) / 10) * 10 + (k + 1) % 10 := by
        show (acc * 10 ^ (natToDecAux ((k + 1) / 10) []).length + (k + 1) / 10) * 10 +
            decDigitVal (Nat.digitChar ((k + 1) % 10)) =
          (acc * 10 ^ (natToDecAux ((k + 1) / 10) []).length + (k + 1) / 10) * 10 + (k + 1) % 10
        rw [digitChar_val _ (Nat.mod_lt _ (by omega))]
      rw [hr]
      rw [List.length_append]
      simp only [List.length_cons, List.length_nil]
      rw [pow_succ]
      have hdm : (k + 1) / 10 * 10 + (k + 1) % 10 = k + 1 := by omega
      calc (acc * 10 ^ (natToDecAux ((k + 1) / 10) []).length + (k + 1) / 10) * 10 + (k + 1) % 10
          = acc * (10 ^ (natToDecAux ((k + 1) / 10) []).length * 10) +
              ((k + 1) / 10 * 10 + (k + 1) % 10) := by ring
        _ = acc * (10 ^ (natToDecAux ((k + 1) / 10) []).length * 10) + (k + 1) := by rw [hdm]

theorem natToDec_inj {a b : Nat} (h : natToDec a = natToDec b) : a = b := by
  have hd := congrArg String.data h
  by_cases ha : a = 0 <;> by_cases hb : b = 0
  · omega
  · exfalso
    simp only [natToDec, if_pos ha, if_neg hb] at hd
    have : decValAux 0 (natToDecAux b []) = b := by
      have := decValAux_natToDecAux b 0; simpa using this
    rw [← hd] at this
    have h0 : decValAux 0 ("0".data) = 0 := by decide
    rw [h0] at this; omega
  · exfalso
    simp only [natToDec, if_neg ha, if_pos hb] at hd
    have : decValAux 0 (natToDecAux a []) = a := by
      have := decValAux_natToDecAux a 0; simpa using this
    rw [hd] at this
    have h0 : decValAux 0 ("0".data) = 0 := by decide
    rw [h0] at this; omega
  · simp only [natToDec, if_neg ha, if_neg hb] at hd
    have ha' : decValAux 0 (natToDecAux a []) = a := by
      have := decValAux_natToDecAux a 0; simpa using this
    have hb' : decValAux 0 (natToDecAux b []) = b := by
      have := decValAux_natToDecAux b 0; simpa using this
    rw [← ha', ← hb', hd]

theorem underscore_sep : ∀ {a b x y : List Char},
    '_' ∉ a → '_' ∉ b → a ++ '_' :: x = b ++ '_' :: y → a = b ∧ x = y := by
  intro a
  induction a with
  | nil =>
    intro b x y _ hb h
    cases b with
    | nil => simpa using h
    | cons d bs =>
      exfalso
      simp only [List.nil_append, List.cons_append, List.cons.injEq] at h
      exact hb (h.1 ▸ List.mem_cons_self d bs)
  | cons c as ih =>
    intro b x y ha hb h
    cases b with
    | nil =>
      exfalso
      simp only [List.cons_append, List.nil_append, List.cons.injEq] at h
      exact ha (h.1.symm ▸ List.mem_cons_self c as)
    | cons d bs =>
      simp only [List.cons_append, List.cons.injEq] at h
      obtain ⟨hcd, htail⟩ := h
      have ha' : '_' ∉ as := fun hm => ha (List.mem_cons_of_mem c hm)
      have hb' : '_' ∉ bs := fun hm => hb (List.mem_cons_of_mem d hm)
      obtain ⟨h1, h2⟩ := ih ha' hb' htail
      exact ⟨by rw [hcd, h1], h2⟩

theorem parameterNameForTopLevelField_inj {f g : String}
    (h : parameterNameForTopLevelField f = parameterNameForTopLevelField g) : f = g := by
  have hd := congrArg String.data h
  simp only [parameterNameForTopLevelField, String.data_append] at hd
  exact String.ext (List.append_cancel_left hd)

theorem parameterNameForNestedField_inj {f1 e1 f2 e2 : String}
    (h : parameterNameForNestedField f1 e1 = parameterNameForNestedField f2 e2) :
    f1 = f2 ∧ e1 = e2 := by
  have hd := congrArg String.data h
  simp only [parameterNameForNestedField, String.data_append, List.append_assoc] at hd
  have hd' : (natToDec f1.length).data ++ '_' :: (f1.data ++ '_' :: e1.data) =
      (natToDec f2.length).data ++ '_' :: (f2.data ++ '_' :: e2.data) := by
    have : ("n_").data ++ ((natToDec f1.length).data ++ ("_").data ++ (f1.data ++ ("_").data ++ e1.data)) =
        ("n_").data ++ ((natToDec f2.length).data ++ ("_").data ++ (f2.data ++ ("_").data ++ e2.data)) := by
      simpa [List.append_assoc] using hd
    have h2 := List.append_cancel_left this
    simpa [List.append_assoc] using h2
  obtain ⟨hlen, hrest⟩ :=
    underscore_sep (natToDec_no_underscore f1.length) (natToDec_no_underscore f2.length) hd'
  have hlens : f1.length = f2.length := natToDec_inj (String.ext hlen)
  have hdatalen : f1.data.length = f2.data.length := hlens
  obtain ⟨hf, he⟩ := List.append_inj hrest hdatalen
  have he' : e1.data = e2.data := by simpa using he
  exact ⟨String.ext hf, String.ext he'⟩

theorem parameterName_top_ne_nested (f f1 e1 : String) :
    parameterNameForTopLevelField f ≠ parameterNameForNestedField f1 e1 := by
  intro h
  have hd := congrArg String.data h
  simp only [parameterNameForTopLevelField, parameterNameForNestedField,
    String.data_append] at hd
  have : 't' = 'n' := by
    have h0 := congrArg (fun l => l.head?) hd
    simpa using h0
  exact absurd this (by decide)

/-! ## Claim theorems: parameter names, empty batches, registration, initialization -/

/-- C7: the SQL parameter names synthesized during own-data ingestion are
injective: distinct top-level fields get distinct names, distinct
(nested, egg) pairs get distinct names, and no top-level name collides
with a nested name — even when fieldnames contain the separator '_'. -/
theorem parameterNames_injective :
    (∀ f g : String, parameterNameForTopLevelField f = parameterNameForTopLevelField g → f = g) ∧
    (∀ f1 e1 f2 e2 : String,
      parameterNameForNestedField f1 e1 = parameterNameForNestedField f2 e2 →
        f1 = f2 ∧ e1 = e2) ∧
    (∀ f f1 e1 : String,
      parameterNameForTopLevelField f ≠ parameterNameForNestedField f1 e1) :=
  ⟨fun _ _ h => parameterNameForTopLevelField_inj h,
   fun _ _ _ _ h => parameterNameForNestedField_inj h,
   parameterName_top_ne_nested⟩

/-- Witness for C7 at adversarial inputs containing the separator: the
names of the nested pairs ("a_b", "c") and ("a", "b_c") differ (so the
injectivity hypotheses are discharged at concrete inputs). -/
theorem parameterNames_injective_witness :
    ("a_b" : String) = "a_b" ∧ ("x" : String) = "x" ∧
    parameterNameForTopLevelField "n_3_a_b" ≠ parameterNameForNestedField "a_b" "x" := by
  refine ⟨parameterNames_injective.1 "a_b" "a_b" rfl,
          (parameterNames_injective.2.1 "a_b" "x" "a_b" "x" rfl).2,
          parameterNames_injective.2.2 "n_3_a_b" "a_b" "x"⟩

/-- C10: calling `_nontransactionallyUpdateOwnData` with an empty batch
(zero records) is a silent no-op: it returns without error and performs
no database writes — no typename validation is attempted and every table
is left unchanged. -/
theorem updateOwnData_empty_batch_noop (m : Mirror) (updateId : Nat) (s : State) :
    nontransactionallyUpdateOwnData m updateId [] s = .ok s := rfl

/-- C2: for an id already present in `objects`, re-registering it with
the same typename changes nothing in the database and raises no error
(both through `registerObject` and `_nontransactionallyRegisterObject`);
registering it with a different typename raises an error and leaves the
database unchanged. -/
theorem registerObject_existing_id (m : Mirror) (s : State) (id t t' : String)
    (h : lookupObjectTypename s.objects id = some t) :
    nontransactionallyRegisterObject m t id s = .ok s ∧
    registerObjectTx m t id s = .ok s ∧
    (t' ≠ t →
      nontransactionallyRegisterObject m t' id s = .error (.inconsistentType id t t') ∧
      registerObjectTx m t' id s = .error (.inconsistentType id t t')) := by
  refine ⟨?_, ?_, ?_⟩
  · simp [nontransactionallyRegisterObject, h]
  · simp [registerObjectTx, nontransactionallyRegisterObject, h]
  · intro hne
    constructor
    · simp only [nontransactionallyRegisterObject, h]
      rw [if_neg (by simpa using fun hc => hne hc.symm)]
    · simp only [registerObjectTx, nontransactionallyRegisterObject, h]
      rw [if_neg (by simpa using fun hc => hne hc.symm)]

/-- Witness for C2 on a one-object store. -/
theorem registerObject_existing_id_witness :
    lookupObjectTypename [ObjRow.mk "i1" "Issue" none] "i1" = some "Issue" ∧
    nontransactionallyRegisterObject (Mirror.mk [] (SchemaInfo.mk [] []) []) "Issue" "i1"
      (State.mk none true [] [ObjRow.mk "i1" "Issue" none] [] [] [] [] 1) =
      .ok (State.mk none true [] [ObjRow.mk "i1" "Issue" none] [] [] [] [] 1) ∧
    nontransactionallyRegisterObject (Mirror.mk [] (SchemaInfo.mk [] []) []) "User" "i1"
      (State.mk none true [] [ObjRow.mk "i1" "Issue" none] [] [] [] [] 1) =
      .error (.inconsistentType "i1" "Issue" "User") := by
  have h := registerObject_existing_id (Mirror.mk [] (SchemaInfo.mk [] []) [])
    (State.mk none true [] [ObjRow.mk "i1" "Issue" none] [] [] [] [] 1)
    "i1" "Issue" "User" (by decide)
  exact ⟨by decide, h.1, (h.2.2 (by decide)).1⟩

/-- C3: on construction over an already-populated database, the stored
`meta.config` row is compared against the canonical encoding of
version/schema/options before touching anything: an equal blob returns
without modifying the store; a different blob fails with the
"incompatible schema, options, or version" error and the store is left
untouched (the comparison precedes every table creation, and the
transaction rolls back). -/
theorem initializeStore_populated (m : Mirror) (s : State) (b : String)
    (h : s.meta = some b) :
    (b = configBlob m.schema m.blacklistedIds → initializeStore m s = .ok s) ∧
    (b ≠ configBlob m.schema m.blacklistedIds →
      initializeStore m s = .error .incompatible) := by
  constructor
  · intro he; simp [initializeStore, h, he]
  · intro hne
    simp only [initializeStore, h]
    rw [if_neg (by simpa using hne)]

/-- Witness for C3 on a concrete populated store: reopening with the
matching fingerprint is a no-op, and a mismatching stored blob fails. -/
theorem initializeStore_populated_witness :
    initializeStore (Mirror.mk [] (SchemaInfo.mk [] []) [])
      (State.mk (some (configBlob [] [])) true [] [] [] [] [] [] 1) =
      .ok (State.mk (some (configBlob [] [])) true [] [] [] [] [] [] 1) ∧
    initializeStore (Mirror.mk [] (SchemaInfo.mk [] []) [])
      (State.mk (some "other") true [] [] [] [] [] [] 1) = .error .incompatible := by
  refine ⟨(initializeStore_populated (Mirror.mk [] (SchemaInfo.mk [] []) [])
      (State.mk (some (configBlob [] [])) true [] [] [] [] [] [] 1) _ rfl).1 rfl,
    (initializeStore_populated (Mirror.mk [] (SchemaInfo.mk [] []) [])
      (State.mk (some "other") true [] [] [] [] [] [] 1) _ rfl).2 (by decide)⟩

/-! ## Helper lemmas and claim theorems: the outdated finder and the connection query -/

theorem lookupUpdateTime_mem {ups : List (Nat × Int)} (hU : (ups.map Prod.fst).Nodup)
    (u : Nat) (t : Int) : lookupUpdateTime ups u = some t ↔ (u, t) ∈ ups := by
  induction ups with
  | nil => simp [lookupUpdateTime]
  | cons p rest ih =>
    have hU' : (p.1 :: rest.map Prod.fst).Nodup := by simpa using hU
    obtain ⟨hnotin, hrest⟩ := List.nodup_cons.mp hU'
    unfold lookupUpdateTime
    by_cases hp : p.1 = u
    · rw [List.find?_cons_of_pos _ (by simpa using hp)]
      simp only [Option.map_some', Option.some.injEq]
      constructor
      · intro ht
        have : p = (u, t) := by
          cases p with
          | mk a b => simp_all
        rw [← this]; exact List.mem_cons_self _ _
      · intro hmem
        rcases List.mem_cons.mp hmem with hh | hh
        · rw [← hh]
        · exact absurd (by simpa [← hp] using List.mem_map_of_mem Prod.fst hh) hnotin
    · rw [List.find?_cons_of_neg _ (by simpa using hp)]
      rw [show (rest.find? (fun q => q.1 == u)).map (fun q => q.2) = lookupUpdateTime rest u from rfl]
      rw [ih hrest]
      constructor
      · exact fun hm => List.mem_cons_of_mem _ hm
      · intro hmem
        rcases List.mem_cons.mp hmem with hh | hh
        · exact absurd (by rw [← hh]) hp
        · exact hh

theorem lastUpdate_outdated_iff {ups : List (Nat × Int)} (hU : (ups.map Prod.fst).Nodup)
    (since : Int) (lu : Option Nat) :
    (match lu with
     | none => true
     | some u => match lookupUpdateTime ups u with
       | none => false
       | some time => decide (time < since)) = true ↔
    (lu = none ∨ ∃ u time, lu = some u ∧ (u, time) ∈ ups ∧ time < since) := by
  cases lu with
  | none => simp
  | some u =>
    simp only [Option.some.injEq, reduceCtorEq, false_or]
    cases hT : lookupUpdateTime ups u with
    | none =>
      simp only [Bool.false_eq_true, false_iff]
      intro h
      obtain ⟨u', t', hu', hmem, _⟩ := h
      have hl := (lookupUpdateTime_mem hU u' t').mpr hmem
      rw [← hu'] at hl
      rw [hT] at hl
      exact absurd hl (by simp)
    | some time =>
      simp only [decide_eq_true_eq]
      constructor
      · intro hlt
        exact ⟨u, time, rfl, (lookupUpdateTime_mem hU u time).mp hT, hlt⟩
      · intro h
        obtain ⟨u', t', hu', hmem, hlt⟩ := h
        have hl := (lookupUpdateTime_mem hU u' t').mpr hmem
        rw [← hu'] at hl
        rw [hT] at hl
        injection hl with hh
        omega

theorem objectOutdated_iff {ups : List (Nat × Int)} (hU : (ups.map Prod.fst).Nodup)
    (since : Int) (o : ObjRow) :
    objectOutdated ups since o = true ↔
      (o.lastUpdate = none ∨
       ∃ u time, o.lastUpdate = some u ∧ (u, time) ∈ ups ∧ time < since) :=
  lastUpdate_outdated_iff hU since o.lastUpdate

theorem connectionOutdated_iff {ups : List (Nat × Int)} (hU : (ups.map Prod.fst).Nodup)
    (since : Int) (c : ConnRow) :
    connectionOutdated ups since c = true ↔
      (c.hasNextPage = some true ∨ c.lastUpdate = none ∨
       ∃ u time, c.lastUpdate = some u ∧ (u, time) ∈ ups ∧ time < since) := by
  unfold connectionOutdated
  rw [Bool.or_eq_true]
  rw [lastUpdate_outdated_iff hU since c.lastUpdate]
  simp only [beq_iff_eq]

/-- C5: `_findOutdated(since)` returns exactly the objects whose
`last_update` is NULL or whose associated update timestamp is strictly
below `since`, and exactly the connections (joined with their object for
the typename) whose `has_next_page` is true, or whose `last_update` is
NULL, or whose update timestamp is strictly below `since`; a
never-updated connection's emitted cursor is the distinguished unknown
marker (the outer `none`), distinct from a known-null cursor
(`some none`). -/
theorem findOutdated_spec (s : State) (since : Int)
    (hU : (s.updates.map Prod.fst).Nodup) :
    (∀ t i, (t, i) ∈ (findOutdated s since).objects ↔
      ∃ o, o ∈ s.objects ∧ o.typename = t ∧ o.id = i ∧
        (o.lastUpdate = none ∨
         ∃ u time, o.lastUpdate = some u ∧ (u, time) ∈ s.updates ∧ time < since)) ∧
    (∀ pc, pc ∈ (findOutdated s since).connections ↔
      ∃ c, c ∈ s.connections ∧ ∃ o, o ∈ s.objects ∧ o.id = c.objectId ∧
        (c.hasNextPage = some true ∨ c.lastUpdate = none ∨
         ∃ u time, c.lastUpdate = some u ∧ (u, time) ∈ s.updates ∧ time < since) ∧
        pc = PlanConnection.mk o.typename c.objectId c.fieldname
              (if c.lastUpdate = none then none else some c.endCursor)) ∧
    (findOutdated s since).typenames = [] := by
  refine ⟨?_, ?_, rfl⟩
  · intro t i
    simp only [findOutdated, List.mem_map, List.mem_filter]
    constructor
    · rintro ⟨o, ⟨ho, hout⟩, heq⟩
      refine ⟨o, ho, ?_, ?_, (objectOutdated_iff hU since o).mp hout⟩
      · simpa using congrArg Prod.fst heq
      · simpa using congrArg Prod.snd heq
    · rintro ⟨o, ho, ht, hi, hcond⟩
      exact ⟨o, ⟨ho, (objectOutdated_iff hU since o).mpr hcond⟩, by rw [ht, hi]⟩
  · intro pc
    simp only [findOutdated, List.mem_flatMap]
    constructor
    · rintro ⟨c, hc, hmem⟩
      by_cases hout : connectionOutdated s.updates since c = true
      · rw [if_pos hout] at hmem
        simp only [List.mem_map, List.mem_filter] at hmem
        obtain ⟨o, ⟨ho, hoid⟩, heq⟩ := hmem
        refine ⟨c, hc, o, ho, by simpa using hoid,
          (connectionOutdated_iff hU since c).mp hout, ?_⟩
        rw [← heq]
        congr 1
        cases c.lastUpdate <;> simp
      · rw [if_neg hout] at hmem; simp at hmem
    · rintro ⟨c, hc, o, ho, hoid, hcond, hpc⟩
      refine ⟨c, hc, ?_⟩
      rw [if_pos ((connectionOutdated_iff hU since c).mpr hcond)]
      simp only [List.mem_map, List.mem_filter]
      refine ⟨o, ⟨ho, by simpa using hoid⟩, ?_⟩
      rw [hpc]
      congr 1
      cases c.lastUpdate <;> simp

/-- C6: every connection query `_queryConnection` builds passes the
argument `first: pageSize` first, and passes `after` if and only if the
supplied end cursor is not the unknown marker (`undefined`): an unknown
cursor omits `after` entirely, while a known-null cursor yields
`after: null`. -/
theorem queryConnection_arguments (m : Mirror) (typename fieldname : String)
    (endCursor : Option (Option String)) (pageSize : Int) (sels : List Selection)
    (h : queryConnection m typename fieldname endCursor pageSize = .ok sels) :
    ∃ args children, sels = [Selection.field fieldname args children] ∧
      args.head? = some ("first", QVal.int pageSize) ∧
      ((∃ v, ("after", v) ∈ args) ↔ endCursor ≠ none) ∧
      (endCursor = none → args = [("first", QVal.int pageSize)]) ∧
      (endCursor = some none → args = [("first", QVal.int pageSize), ("after", QVal.null)]) ∧
      (∀ cs, endCursor = some (some cs) →
        args = [("first", QVal.int pageSize), ("after", QVal.str cs)]) := by
  unfold queryConnection at h
  split at h <;> try simp only [reduceCtorEq] at h
  split at h <;> try simp only [reduceCtorEq] at h
  split at h <;> try simp only [reduceCtorEq] at h
  split at h <;> try simp only [reduceCtorEq] at h
  injection h with hinj
  subst hinj
  refine ⟨_, _, rfl, ?_, ?_, ?_, ?_, ?_⟩
  · cases endCursor <;> rfl
  · cases endCursor with
    | none => simp
    | some c => simp
  · intro he; subst he; rfl
  · intro he; subst he; rfl
  · intro cs he; subst he; rfl




/-- Witness for C5 on a concrete store: a never-updated object is
scheduled, and a never-updated connection is scheduled with the unknown
cursor marker. -/
theorem findOutdated_spec_witness :
    ("Issue", "i1") ∈ (findOutdated (State.mk none true [(5, 50)]
      [ObjRow.mk "i1" "Issue" none] []
      [ConnRow.mk 1 "i1" "comments" none none none none] [] [] 2) 100).objects ∧
    PlanConnection.mk "Issue" "i1" "comments" none ∈ (findOutdated (State.mk none true [(5, 50)]
      [ObjRow.mk "i1" "Issue" none] []
      [ConnRow.mk 1 "i1" "comments" none none none none] [] [] 2) 100).connections := by
  have h := findOutdated_spec (State.mk none true [(5, 50)]
      [ObjRow.mk "i1" "Issue" none] []
      [ConnRow.mk 1 "i1" "comments" none none none none] [] [] 2) 100 (by decide)
  constructor
  · exact (h.1 "Issue" "i1").mpr
      ⟨ObjRow.mk "i1" "Issue" none, by decide, rfl, rfl, Or.inl rfl⟩
  · exact (h.2.1 (PlanConnection.mk "Issue" "i1" "comments" none)).mpr
      ⟨ConnRow.mk 1 "i1" "comments" none none none none, by decide,
       ObjRow.mk "i1" "Issue" none, by decide, rfl, Or.inr (Or.inl rfl), rfl⟩

/-- Witness for C6 on the example schema: a known-null cursor produces
`first` followed by `after: null`; the unknown marker omits `after`. -/
theorem queryConnection_arguments_witness :
    (∃ sels, queryConnection exampleMirror "Issue" "comments" (some none) 10 = .ok sels ∧
      ∃ args children, sels = [Selection.field "comments" args children] ∧
        args.head? = some ("first", QVal.int 10) ∧
        ((∃ v, ("after", v) ∈ args) ↔ (some none : Option (Option String)) ≠ none)) ∧
    (∃ sels, queryConnection exampleMirror "Issue" "comments" none 10 = .ok sels ∧
      ∃ args children, sels = [Selection.field "comments" args children] ∧
        args = [("first", QVal.int 10)]) := by
  constructor
  · refine ⟨_, rfl, ?_⟩
    obtain ⟨args, children, h1, h2, h3, _, _, _⟩ :=
      queryConnection_arguments exampleMirror "Issue" "comments" (some none) 10 _ rfl
    exact ⟨args, children, h1, h2, h3⟩
  · refine ⟨_, rfl, ?_⟩
    obtain ⟨args, children, h1, _, _, h4, _, _⟩ :=
      queryConnection_arguments exampleMirror "Issue" "comments" none 10 _ rfl
    exact ⟨args, children, h1, h4 rfl⟩

/-! ## Claim C1: append-only, order-preserving connection ingestion -/

theorem exceptOkBind {A B : Type} (x : A) (k : A → Except MError B) :
    (Except.ok x >>= k) = k x := rfl

theorem exceptErrorBind {A B : Type} (e : MError) (k : A → Except MError B) :
    ((Except.error e : Except MError A) >>= k) = .error e := rfl

theorem findConnectionRowid_append (l extra : List ConnRow) (oid f : String) (cid : Nat)
    (h : findConnectionRowid l oid f = some cid) :
    findConnectionRowid (l ++ extra) oid f = some cid := by
  unfold findConnectionRowid at h ⊢
  rw [List.find?_append]
  obtain ⟨c, hc, hcid⟩ : ∃ c, l.find? (fun c => c.objectId == oid && c.fieldname == f) = some c ∧
      c.rowid = cid := by
    cases hf : l.find? (fun c => c.objectId == oid && c.fieldname == f) with
    | none => rw [hf] at h; simp at h
    | some c => rw [hf] at h; exact ⟨c, rfl, by simpa using h⟩
  rw [hc]
  simpa using hcid

theorem registerObject_ok_shape (m : Mirror) (t i : String) (s s' : State)
    (h : nontransactionallyRegisterObject m t i s = .ok s') :
    s'.connectionEntries = s.connectionEntries ∧
    ∃ extra, s'.connections = s.connections ++ extra := by
  unfold nontransactionallyRegisterObject at h
  split at h
  · split at h
    · injection h with hinj; subst hinj; exact ⟨rfl, [], by simp⟩
    · simp only [reduceCtorEq] at h
  · split at h <;> try simp only [reduceCtorEq] at h
    split at h <;> try simp only [reduceCtorEq] at h
    split at h <;> try simp only [reduceCtorEq] at h
    injection h with hinj
    subst hinj
    exact ⟨rfl, _, rfl⟩

theorem registerNodeFieldResult_ok (m : Mirror) (r : Option NodeRef) (s : State)
    (out : Option String × State)
    (h : nontransactionallyRegisterNodeFieldResult m r s = .ok out) :
    out.1 = childIdOf m r ∧ out.2.connectionEntries = s.connectionEntries ∧
    ∃ extra, out.2.connections = s.connections ++ extra := by
  cases r with
  | none =>
      simp only [nontransactionallyRegisterNodeFieldResult] at h
      injection h with hinj
      subst hinj
      exact ⟨rfl, rfl, [], by simp⟩
  | some nr =>
      simp only [nontransactionallyRegisterNodeFieldResult] at h
      by_cases hb : m.blacklistedIds.contains nr.id
      · rw [if_pos hb] at h
        injection h with hinj
        subst hinj
        refine ⟨?_, rfl, [], by simp⟩
        simp only [childIdOf]
        rw [if_pos hb]
      · rw [if_neg hb] at h
        cases hr : nontransactionallyRegisterObject m nr.typename nr.id s with
        | error e => rw [hr] at h; simp only [reduceCtorEq] at h
        | ok s1 =>
            rw [hr] at h
            injection h with hinj
            subst hinj
            obtain ⟨he, extra, hc⟩ := registerObject_ok_shape m nr.typename nr.id s s1 hr
            refine ⟨?_, he, extra, hc⟩
            simp only [childIdOf]
            rw [if_neg hb]

theorem addConnectionEntry_ok (m : Mirror) (cid : Nat) (st : State × Int)
    (n : Option NodeRef) (out : State × Int)
    (h : addConnectionEntry m cid st n = .ok out) :
    out.2 = st.2 + 1 ∧
    out.1.connectionEntries = st.1.connectionEntries ++ [EntryRow.mk cid st.2 (childIdOf m n)] ∧
    ∃ extra, out.1.connections = st.1.connections ++ extra := by
  unfold addConnectionEntry at h
  cases hr : nontransactionallyRegisterNodeFieldResult m n st.1 with
  | error e => rw [hr] at h; simp only [reduceCtorEq] at h
  | ok pr =>
      obtain ⟨c1, s1⟩ := pr
      rw [hr] at h
      injection h with hinj
      subst hinj
      obtain ⟨hc, he, extra, hcon⟩ := registerNodeFieldResult_ok m n st.1 (c1, s1) hr
      refine ⟨rfl, ?_, extra, ?_⟩
      · simp only at he hc
        rw [he, hc]
      · simpa using hcon

theorem foldAddEntries (m : Mirror) (cid : Nat) (nodes : List (Option NodeRef)) :
    ∀ (s : State) (i : Int) (out : State × Int),
      nodes.foldlM (addConnectionEntry m cid) (s, i) = .ok out →
      out.1.connectionEntries = s.connectionEntries ++ pageEntries m cid i nodes ∧
      ∃ extra, out.1.connections = s.connections ++ extra := by
  induction nodes with
  | nil =>
      intro s i out h
      have h' : (Except.ok (s, i) : Except MError (State × Int)) = .ok out := h
      injection h' with hinj
      subst hinj
      exact ⟨by simp [pageEntries], [], by simp⟩
  | cons n ns ih =>
      intro s i out h
      rw [List.foldlM_cons] at h
      cases haux : addConnectionEntry m cid (s, i) n with
      | error e =>
          rw [haux, exceptErrorBind] at h
          simp only [reduceCtorEq] at h
      | ok st1 =>
          rw [haux] at h
          rw [exceptOkBind] at h
          obtain ⟨hidx, hent, extra1, hcon⟩ := addConnectionEntry_ok m cid (s, i) n st1 haux
          obtain ⟨st1s, st1i⟩ := st1
          simp only at hidx hent hcon
          subst hidx
          obtain ⟨hent2, extra2, hcon2⟩ := ih st1s (i + 1) out h
          refine ⟨?_, extra1 ++ extra2, ?_⟩
          · rw [hent2, hent]
            simp [pageEntries]
          · rw [hcon2, hcon, List.append_assoc]

theorem updateConnection_shape (m : Mirror) (updateId : Nat) (oid f : String)
    (q : ConnectionFieldResult) (s s' : State)
    (h : nontransactionallyUpdateConnection m updateId oid f q s = .ok s') :
    ∃ cid extra, findConnectionRowid s.connections oid f = some cid ∧
      s'.connectionEntries = s.connectionEntries ++
        pageEntries m cid (nextIdx s.connectionEntries cid) q.nodes ∧
      s'.connections = s.connections.map (updateConnRow cid updateId q) ++ extra := by
  unfold nontransactionallyUpdateConnection at h
  split at h
  · simp only [reduceCtorEq] at h
  · next cid hf =>
      dsimp only at h
      split at h
      · simp only [reduceCtorEq] at h
      · next s2 _i heq =>
          injection h with hinj
          subst hinj
          obtain ⟨hent, extra, hcon⟩ := foldAddEntries m cid q.nodes _ _ _ heq
          exact ⟨cid, extra, hf, hent, hcon⟩

theorem pageEntries_spec (m : Mirror) (cid : Nat) (nodes : List (Option NodeRef)) :
    ∀ (i : Int),
    (pageEntries m cid i nodes).map (fun e => e.childId) = nodes.map (childIdOf m) ∧
    (pageEntries m cid i nodes).map (fun e => e.idx) = consecutiveFrom i nodes.length ∧
    ∀ e ∈ pageEntries m cid i nodes, e.connectionId = cid := by
  induction nodes with
  | nil => intro i; simp [pageEntries, consecutiveFrom]
  | cons n ns ih =>
      intro i
      obtain ⟨h1, h2, h3⟩ := ih (i + 1)
      refine ⟨?_, ?_, ?_⟩
      · simp [pageEntries, h1]
      · simp [pageEntries, consecutiveFrom, h2]
      · intro e he
        rcases List.mem_cons.mp he with hh | hh
        · rw [hh]
        · exact h3 e hh

theorem pageEntries_filter (m : Mirror) (cid : Nat) (i : Int) (nodes : List (Option NodeRef)) :
    (pageEntries m cid i nodes).filter (fun e => e.connectionId == cid) =
      pageEntries m cid i nodes := by
  rw [List.filter_eq_self]
  intro e he
  simp [(pageEntries_spec m cid nodes i).2.2 e he]

theorem consecutiveFrom_append : ∀ (M k : Nat) (a : Int),
    consecutiveFrom a M ++ consecutiveFrom (a + M) k = consecutiveFrom a (M + k) := by
  intro M
  induction M with
  | zero => intro k a; simp [consecutiveFrom]
  | succ M ih =>
      intro k a
      simp only [consecutiveFrom, List.cons_append]
      have h1 : a + ↑(M + 1) = (a + 1) + ↑M := by push_cast; ring
      rw [h1, ih k (a + 1)]
      have h2 : M + 1 + k = (M + k) + 1 := by omega
      rw [h2]
      rfl

theorem consecutiveFrom_foldl_max : ∀ (M : Nat) (a x : Int), x ≤ a →
    (consecutiveFrom a (M + 1)).foldl max x = a + M := by
  intro M
  induction M with
  | zero =>
      intro a x hx
      show max x a = a + (0 : Nat)
      simp [max_eq_right hx]
  | succ M ih =>
      intro a x hx
      show (consecutiveFrom (a + 1) (M + 1)).foldl max (max x a) = a + ↑(M + 1)
      rw [ih (a + 1) (max x a) (by omega)]
      push_cast
      ring

theorem nextIdx_of_consecutive (s : State) (cid : Nat) (M : Nat)
    (h : (entriesFor s cid).map (fun e => e.idx) = consecutiveFrom 1 M) :
    nextIdx s.connectionEntries cid = M + 1 := by
  unfold nextIdx
  have hfe : (s.connectionEntries.filter (fun e => e.connectionId == cid)).map (fun e => e.idx) =
      consecutiveFrom 1 M := h
  rw [hfe]
  cases M with
  | zero => simp [consecutiveFrom]
  | succ k =>
      have hcons : consecutiveFrom 1 (k + 1) = 1 :: consecutiveFrom 2 k := rfl
      rw [hcons]
      rw [List.max?_cons']
      cases k with
      | zero => simp [consecutiveFrom]
      | succ j =>
          rw [consecutiveFrom_foldl_max j 2 1 (by omega)]
          simp only [Option.getD_some]
          push_cast
          ring

theorem findConnectionRowid_map_updateConnRow (l : List ConnRow) (cid updateId : Nat)
    (q : ConnectionFieldResult) (oid f : String) (c : Nat)
    (h : findConnectionRowid l oid f = some c) :
    findConnectionRowid (l.map (updateConnRow cid updateId q)) oid f = some c := by
  unfold findConnectionRowid at h ⊢
  rw [List.find?_map]
  have hpred : ((fun cc : ConnRow => cc.objectId == oid && cc.fieldname == f) ∘
      (updateConnRow cid updateId q)) = (fun cc => cc.objectId == oid && cc.fieldname == f) := by
    funext x
    simp only [Function.comp_apply, updateConnRow]
    split <;> rfl
  rw [hpred]
  obtain ⟨row, hrow, hrid⟩ : ∃ row, l.find? (fun cc => cc.objectId == oid && cc.fieldname == f) =
      some row ∧ row.rowid = c := by
    cases hf : l.find? (fun cc => cc.objectId == oid && cc.fieldname == f) with
    | none => rw [hf] at h; simp at h
    | some row => rw [hf] at h; exact ⟨row, rfl, by simpa using h⟩
  rw [hrow]
  simp only [Option.map_some', Option.some.injEq, updateConnRow]
  split <;> simp [hrid]

theorem ingestPages_aux (m : Mirror) (oid f : String) (cid : Nat) :
    ∀ (pages : List (Nat × ConnectionFieldResult)) (s sF : State)
      (done : List (List (Option String))) (M : Nat),
      findConnectionRowid s.connections oid f = some cid →
      (entriesFor s cid).map (fun e => e.childId) = done.flatten →
      (entriesFor s cid).map (fun e => e.idx) = consecutiveFrom 1 M →
      ingestPages m oid f pages s = .ok sF →
      (entriesFor sF cid).map (fun e => e.childId) =
        (done ++ pages.map (fun p => p.2.nodes.map (childIdOf m))).flatten ∧
      (entriesFor sF cid).map (fun e => e.idx) =
        consecutiveFrom 1 (M + (pages.map (fun p => p.2.nodes.length)).sum) := by
  intro pages
  induction pages with
  | nil =>
      intro s sF done M _hfind hdone hidx hok
      have h' : (Except.ok s : Except MError State) = .ok sF := hok
      injection h' with hinj
      subst hinj
      constructor
      · simpa using hdone
      · simpa using hidx
  | cons p ps ih =>
      intro s sF done M hfind hdone hidx hok
      unfold ingestPages at hok
      rw [List.foldlM_cons] at hok
      cases hstep : nontransactionallyUpdateConnection m p.1 oid f p.2 s with
      | error e => rw [hstep, exceptErrorBind] at hok; simp only [reduceCtorEq] at hok
      | ok s1 =>
          rw [hstep, exceptOkBind] at hok
          obtain ⟨cid', extra, hfind', hent, hcon⟩ :=
            updateConnection_shape m p.1 oid f p.2 s s1 hstep
          rw [hfind] at hfind'
          injection hfind' with hcid
          subst hcid
          have hef : entriesFor s1 cid = entriesFor s cid ++
              pageEntries m cid (nextIdx s.connectionEntries cid) p.2.nodes := by
            unfold entriesFor
            rw [hent, List.filter_append, pageEntries_filter]
          have hnext : nextIdx s.connectionEntries cid = (M : Int) + 1 :=
            nextIdx_of_consecutive s cid M hidx
          have hdone1 : (entriesFor s1 cid).map (fun e => e.childId) =
              (done ++ [p.2.nodes.map (childIdOf m)]).flatten := by
            rw [hef, List.map_append, hdone, (pageEntries_spec m cid p.2.nodes _).1]
            simp
          have hidx1 : (entriesFor s1 cid).map (fun e => e.idx) =
              consecutiveFrom 1 (M + p.2.nodes.length) := by
            rw [hef, List.map_append, hidx, (pageEntries_spec m cid p.2.nodes _).2.1, hnext]
            have hca := consecutiveFrom_append M p.2.nodes.length 1
            rw [show ((M : Int) + 1) = (1 : Int) + (M : Nat) from by ring]
            exact hca
          have hfind1 : findConnectionRowid s1.connections oid f = some cid := by
            rw [hcon]
            exact findConnectionRowid_append _ _ _ _ _
              (findConnectionRowid_map_updateConnRow _ _ _ _ _ _ _ hfind)
          obtain ⟨hA, hB⟩ := ih s1 sF (done ++ [p.2.nodes.map (childIdOf m)])
            (M + p.2.nodes.length) hfind1 hdone1 hidx1 hok
          constructor
          · rw [hA]
            simp [List.flatten_append]
          · rw [hB]
            congr 1
            simp [List.sum_cons]
            omega

/-- C1: connection ingestion is append-only and order-preserving.  Part
one: a successful `_nontransactionallyUpdateConnection` appends to
`connection_entries` exactly one row per listed node, in response order,
with consecutive `idx` values starting at `IFNULL(MAX(idx), 0) + 1`
(that is, 1 when the connection has no entries), never modifying or
deleting an existing row.  Part two: for any sequence of ingested pages
on a connection that starts with no entries, the entries read in
ascending `idx` order (their indices are exactly `1, 2, ...`) equal the
concatenation of the pages in ingestion order. -/
theorem updateConnection_append_only :
    (∀ (m : Mirror) (updateId : Nat) (oid f : String) (q : ConnectionFieldResult) (s s' : State),
      nontransactionallyUpdateConnection m updateId oid f q s = .ok s' →
      ∃ cid, findConnectionRowid s.connections oid f = some cid ∧
        s'.connectionEntries = s.connectionEntries ++
          pageEntries m cid (nextIdx s.connectionEntries cid) q.nodes ∧
        (pageEntries m cid (nextIdx s.connectionEntries cid) q.nodes).map (fun e => e.idx) =
          consecutiveFrom (nextIdx s.connectionEntries cid) q.nodes.length ∧
        (pageEntries m cid (nextIdx s.connectionEntries cid) q.nodes).map (fun e => e.childId) =
          q.nodes.map (childIdOf m) ∧
        (entriesFor s cid = [] → nextIdx s.connectionEntries cid = 1)) ∧
    (∀ (m : Mirror) (oid f : String) (cid : Nat)
      (pages : List (Nat × ConnectionFieldResult)) (s0 sF : State),
      findConnectionRowid s0.connections oid f = some cid →
      entriesFor s0 cid = [] →
      ingestPages m oid f pages s0 = .ok sF →
      (entriesFor sF cid).map (fun e => e.childId) =
        (pages.map (fun p => p.2.nodes.map (childIdOf m))).flatten ∧
      (entriesFor sF cid).map (fun e => e.idx) =
        consecutiveFrom 1 ((pages.map (fun p => p.2.nodes.length)).sum)) := by
  constructor
  · intro m updateId oid f q s s' h
    obtain ⟨cid, extra, hfind, hent, _⟩ := updateConnection_shape m updateId oid f q s s' h
    refine ⟨cid, hfind, hent, (pageEntries_spec m cid q.nodes _).2.1,
      (pageEntries_spec m cid q.nodes _).1, ?_⟩
    intro hempty
    have : (entriesFor s cid).map (fun e => e.idx) = consecutiveFrom 1 0 := by
      rw [hempty]; rfl
    simpa using nextIdx_of_consecutive s cid 0 this
  · intro m oid f cid pages s0 sF hfind hempty hok
    have hdone : (entriesFor s0 cid).map (fun e => e.childId) =
        ([] : List (List (Option String))).flatten := by
      rw [hempty]; rfl
    have hidx : (entriesFor s0 cid).map (fun e => e.idx) = consecutiveFrom 1 0 := by
      rw [hempty]; rfl
    have := ingestPages_aux m oid f cid pages s0 sF [] 0 hfind hdone hidx hok
    simpa using this


/-- Witness for C1: two concrete pages ingested on a fresh connection of
the example store yield entries `u2, null, null` (the blacklisted id is
severed to null) at indices 1, 2, 3. -/
theorem updateConnection_append_only_witness :
    ingestPages exampleMirror "i1" "comments"
        [(2, ConnectionFieldResult.mk 2 true (some "c1") [some (NodeRef.mk "User" "u2"), none]),
         (3, ConnectionFieldResult.mk 2 false (some "c2") [some (NodeRef.mk "User" "bad1")])]
        (State.mk none true [] [ObjRow.mk "i1" "Issue" none] []
          [ConnRow.mk 1 "i1" "comments" none none none none] []
          [("Issue", [PrimRow.mk "i1" []]), ("User", [])] 2) =
      .ok (State.mk none true []
        [ObjRow.mk "i1" "Issue" none, ObjRow.mk "u2" "User" none] []
        [ConnRow.mk 1 "i1" "comments" (some 3) (some 2) (some false) (some "c2")]
        [EntryRow.mk 1 1 (some "u2"), EntryRow.mk 1 2 none, EntryRow.mk 1 3 none]
        [("Issue", [PrimRow.mk "i1" []]), ("User", [PrimRow.mk "u2" []])] 2) ∧
    (entriesFor (State.mk none true []
        [ObjRow.mk "i1" "Issue" none, ObjRow.mk "u2" "User" none] []
        [ConnRow.mk 1 "i1" "comments" (some 3) (some 2) (some false) (some "c2")]
        [EntryRow.mk 1 1 (some "u2"), EntryRow.mk 1 2 none, EntryRow.mk 1 3 none]
        [("Issue", [PrimRow.mk "i1" []]), ("User", [PrimRow.mk "u2" []])] 2) 1).map
      (fun e => e.childId) = [some "u2", none, none] ∧
    (entriesFor (State.mk none true []
        [ObjRow.mk "i1" "Issue" none, ObjRow.mk "u2" "User" none] []
        [ConnRow.mk 1 "i1" "comments" (some 3) (some 2) (some false) (some "c2")]
        [EntryRow.mk 1 1 (some "u2"), EntryRow.mk 1 2 none, EntryRow.mk 1 3 none]
        [("Issue", [PrimRow.mk "i1" []]), ("User", [PrimRow.mk "u2" []])] 2) 1).map
      (fun e => e.idx) = [1, 2, 3] := by
  refine ⟨rfl, ?_⟩
  obtain ⟨hA, hB⟩ := updateConnection_append_only.2 exampleMirror "i1" "comments" 1
    [(2, ConnectionFieldResult.mk 2 true (some "c1") [some (NodeRef.mk "User" "u2"), none]),
     (3, ConnectionFieldResult.mk 2 false (some "c2") [some (NodeRef.mk "User" "bad1")])]
    (State.mk none true [] [ObjRow.mk "i1" "Issue" none] []
      [ConnRow.mk 1 "i1" "comments" none none none none] []
      [("Issue", [PrimRow.mk "i1" []]), ("User", [])] 2)
    (State.mk none true []
        [ObjRow.mk "i1" "Issue" none, ObjRow.mk "u2" "User" none] []
        [ConnRow.mk 1 "i1" "comments" (some 3) (some 2) (some false) (some "c2")]
        [EntryRow.mk 1 1 (some "u2"), EntryRow.mk 1 2 none, EntryRow.mk 1 3 none]
        [("Issue", [PrimRow.mk "i1" []]), ("User", [PrimRow.mk "u2" []])] 2)
    rfl rfl rfl
  exact ⟨hA.trans (by rfl), hB.trans (by rfl)⟩

theorem mem_directDependencies_link (s : State) (l : LinkRow) (c : String)
    (hl : l ∈ s.links) (hc : l.childId = some c) :
    (l.parentId, c) ∈ directDependencies s := by
  unfold directDependencies
  apply List.mem_append_left
  exact List.mem_filterMap.mpr ⟨l, hl, by rw [hc]; rfl⟩

theorem mem_directDependencies_conn (s : State) (cr : ConnRow) (e : EntryRow) (c : String)
    (hcr : cr ∈ s.connections) (he : e ∈ s.connectionEntries)
    (hid : e.connectionId = cr.rowid) (hc : e.childId = some c) :
    (cr.objectId, c) ∈ directDependencies s := by
  unfold directDependencies
  apply List.mem_append_right
  apply List.mem_flatMap.mpr
  refine ⟨cr, hcr, List.mem_filterMap.mpr ⟨e, he, ?_⟩⟩
  rw [if_pos (by simp [hid]), hc]
  rfl

theorem directDependencies_step (s : State) (root p c : String)
    (hmem : (p, c) ∈ directDependencies s) (hp : Reachable s root p) :
    Reachable s root c := by
  unfold directDependencies at hmem
  rcases List.mem_append.mp hmem with h | h
  · obtain ⟨l, hl, heq⟩ := List.mem_filterMap.mp h
    cases hc : l.childId with
    | none => rw [hc] at heq; simp at heq
    | some c' =>
        rw [hc] at heq
        simp only [Option.map_some', Option.some.injEq] at heq
        have hpc : l.parentId = p ∧ c' = c := by
          constructor
          · exact congrArg Prod.fst heq
          · exact congrArg Prod.snd heq
        exact Reachable.link p c l (hpc.1 ▸ hp) hl hpc.1 (by rw [hc, hpc.2])
  · obtain ⟨cr, hcr, hmem2⟩ := List.mem_flatMap.mp h
    obtain ⟨e, he, heq⟩ := List.mem_filterMap.mp hmem2
    by_cases hid : e.connectionId == cr.rowid
    · rw [if_pos hid] at heq
      cases hc : e.childId with
      | none => rw [hc] at heq; simp at heq
      | some c' =>
          rw [hc] at heq
          simp only [Option.map_some', Option.some.injEq] at heq
          have hpc : cr.objectId = p ∧ c' = c := by
            constructor
            · exact congrArg Prod.fst heq
            · exact congrArg Prod.snd heq
          exact Reachable.conn p c cr e (hpc.1 ▸ hp) hcr hpc.1 he (by simpa using hid)
            (by rw [hc, hpc.2])
    · rw [if_neg hid] at heq
      simp at heq

theorem stepClosure_subset (deps : List (String × String)) (S : List String) :
    ∀ x ∈ S, x ∈ stepClosure deps S := by
  intro x hx
  exact List.mem_append_left _ hx

theorem stepClosure_sound (s : State) (root : String) (S : List String)
    (hS : ∀ x ∈ S, Reachable s root x) :
    ∀ x ∈ stepClosure (directDependencies s) S, Reachable s root x := by
  intro x hx
  rcases List.mem_append.mp hx with h | h
  · exact hS x h
  · rw [List.mem_dedup] at h
    obtain ⟨pc, hpc, heq⟩ := List.mem_filterMap.mp h
    by_cases hcond : (S.contains pc.1 && !S.contains pc.2) = true
    · rw [if_pos hcond] at heq
      injection heq with heq'
      subst heq'
      have hp : pc.1 ∈ S := by
        have := (Bool.and_eq_true _ _).mp hcond
        simpa using this.1
      exact directDependencies_step s root pc.1 pc.2 (by simpa using hpc) (hS pc.1 hp)
    · rw [if_neg hcond] at heq
      simp at heq

theorem iterate_closure_sound (s : State) (root : String) :
    ∀ (n : Nat) (S : List String), (∀ x ∈ S, Reachable s root x) →
      ∀ x ∈ (Nat.iterate (stepClosure (directDependencies s)) n S), Reachable s root x := by
  intro n
  induction n with
  | zero => intro S hS; exact hS
  | succ n ih =>
      intro S hS
      rw [Function.iterate_succ_apply]
      exact ih _ (stepClosure_sound s root S hS)

theorem transitiveDependencies_sound (s : State) (root : String) :
    ∀ x ∈ transitiveDependencies (directDependencies s) root, Reachable s root x := by
  apply iterate_closure_sound
  intro x hx
  rcases List.mem_cons.mp hx with h | h
  · rw [h]; exact Reachable.refl
  · simp at h

theorem stepClosure_nodup_subset (deps : List (String × String)) (S : List String)
    (hN : S.Nodup) (hU : ∀ x ∈ S, x ∈ root0 :: deps.map Prod.snd) :
    (stepClosure deps S).Nodup ∧
      ∀ x ∈ stepClosure deps S, x ∈ root0 :: deps.map Prod.snd := by
  constructor
  · apply List.Nodup.append hN (List.nodup_dedup _)
    intro x hxS hxA
    rw [List.mem_dedup] at hxA
    obtain ⟨pc, _, heq⟩ := List.mem_filterMap.mp hxA
    by_cases hcond : (S.contains pc.1 && !S.contains pc.2) = true
    · rw [if_pos hcond] at heq
      injection heq with heq'
      subst heq'
      have := (Bool.and_eq_true _ _).mp hcond
      have hnot : pc.2 ∉ S := by simpa using this.2
      exact hnot hxS
    · rw [if_neg hcond] at heq; simp at heq
  · intro x hx
    rcases List.mem_append.mp hx with h | h
    · exact hU x h
    · rw [List.mem_dedup] at h
      obtain ⟨pc, hpc, heq⟩ := List.mem_filterMap.mp h
      by_cases hcond : (S.contains pc.1 && !S.contains pc.2) = true
      · rw [if_pos hcond] at heq
        injection heq with heq'
        subst heq'
        exact List.mem_cons_of_mem _ (List.mem_map_of_mem Prod.snd hpc)
      · rw [if_neg hcond] at heq; simp at heq

theorem stepClosure_fix_iterate (deps : List (String × String)) (S : List String)
    (h : stepClosure deps S = S) : ∀ n, Nat.iterate (stepClosure deps) n S = S := by
  intro n
  induction n with
  | zero => rfl
  | succ n ih => rw [Function.iterate_succ_apply, h, ih]

theorem iterate_length_of_no_fix (deps : List (String × String)) (S0 : List String) :
    ∀ n, (∀ j < n, stepClosure deps (Nat.iterate (stepClosure deps) j S0) ≠
        Nat.iterate (stepClosure deps) j S0) →
      n + S0.length ≤ (Nat.iterate (stepClosure deps) n S0).length := by
  intro n
  induction n with
  | zero => simp
  | succ n ih =>
      intro h
      have hrec := ih (fun j hj => h j (by omega))
      rw [Function.iterate_succ_apply']
      have hne := h n (by omega)
      set X := Nat.iterate (stepClosure deps) n S0 with hX
      have hadds : (deps.filterMap (fun pc =>
          if X.contains pc.1 && !X.contains pc.2 then some pc.2 else none)).dedup ≠ [] := by
        intro hnil
        apply hne
        unfold stepClosure
        rw [hnil, List.append_nil]
      have hlen : 1 ≤ (deps.filterMap (fun pc =>
          if X.contains pc.1 && !X.contains pc.2 then some pc.2 else none)).dedup.length :=
        List.length_pos.mpr hadds
      unfold stepClosure
      rw [List.length_append]
      omega

theorem iterate_nodup_subset (deps : List (String × String)) (root : String) :
    ∀ n, (Nat.iterate (stepClosure deps) n [root]).Nodup ∧
      ∀ x ∈ Nat.iterate (stepClosure deps) n [root], x ∈ root :: deps.map Prod.snd := by
  intro n
  induction n with
  | zero =>
      constructor
      · exact List.nodup_singleton root
      · intro x hx
        rcases List.mem_singleton.mp hx with h
        rw [h]; exact List.mem_cons_self _ _
  | succ n ih =>
      rw [Function.iterate_succ_apply']
      exact stepClosure_nodup_subset deps _ ih.1 ih.2

theorem transitiveDependencies_fix (deps : List (String × String)) (root : String) :
    stepClosure deps (transitiveDependencies deps root) = transitiveDependencies deps root := by
  by_cases hex : ∃ k, k ≤ deps.length + 1 ∧
      stepClosure deps (Nat.iterate (stepClosure deps) k [root]) =
        Nat.iterate (stepClosure deps) k [root]
  · obtain ⟨k, hk, hfix⟩ := hex
    unfold transitiveDependencies
    have hsplit : deps.length + 1 = (deps.length + 1 - k) + k := by omega
    rw [hsplit, Function.iterate_add_apply,
        stepClosure_fix_iterate deps _ hfix (deps.length + 1 - k)]
    exact hfix
  · push_neg at hex
    exfalso
    have hnofix : ∀ j < deps.length + 1 + 1,
        stepClosure deps (Nat.iterate (stepClosure deps) j [root]) ≠
          Nat.iterate (stepClosure deps) j [root] := by
      intro j hj
      exact hex j (by omega)
    have hlow := iterate_length_of_no_fix deps [root] (deps.length + 1 + 1)
      (fun j hj => hnofix j hj)
    have hbound : (Nat.iterate (stepClosure deps) (deps.length + 1 + 1) [root]).length ≤
        (root :: deps.map Prod.snd).length := by
      have hns := iterate_nodup_subset deps root (deps.length + 1 + 1)
      exact (List.subperm_of_subset hns.1 (fun a ha => hns.2 a ha)).length_le
    simp only [List.length_cons, List.length_map, List.length_singleton] at hlow hbound
    omega

theorem transitiveDependencies_complete (s : State) (root c : String)
    (h : Reachable s root c) :
    c ∈ transitiveDependencies (directDependencies s) root := by
  have hroot : root ∈ transitiveDependencies (directDependencies s) root := by
    unfold transitiveDependencies
    have : ∀ n, root ∈ Nat.iterate (stepClosure (directDependencies s)) n [root] := by
      intro n
      induction n with
      | zero => exact List.mem_singleton.mpr rfl
      | succ n ih =>
          rw [Function.iterate_succ_apply']
          exact stepClosure_subset _ _ root ih
    exact this _
  have hclosed : ∀ p c0, (p, c0) ∈ directDependencies s →
      p ∈ transitiveDependencies (directDependencies s) root →
      c0 ∈ transitiveDependencies (directDependencies s) root := by
    intro p c0 hmem hp
    have hfix := transitiveDependencies_fix (directDependencies s) root
    by_cases hc0 : c0 ∈ transitiveDependencies (directDependencies s) root
    · exact hc0
    · exfalso
      apply hc0
      rw [← hfix]
      apply List.mem_append_right
      rw [List.mem_dedup]
      apply List.mem_filterMap.mpr
      refine ⟨(p, c0), hmem, ?_⟩
      rw [if_pos]
      simp only [Bool.and_eq_true, Bool.not_eq_true']
      constructor
      · exact List.elem_iff.mpr hp
      · exact Bool.not_eq_true _ ▸ (by simpa using hc0)
  induction h with
  | refl => exact hroot
  | link p c0 l _hr hl hpid hcid ih =>
      exact hclosed p c0 (hpid ▸ mem_directDependencies_link s l c0 hl hcid) ih
  | conn p c0 cr e _hr hcr hoid he hcid hchild ih =>
      exact hclosed p c0 (hoid ▸ mem_directDependencies_conn s cr e c0 hcr he hcid hchild) ih

theorem freshnessOffender_spec (s : State) (temp : List ObjRow) (i : String) (fopt : Option String)
    (h : freshnessOffender s temp = some (i, fopt)) :
    (fopt = none ∧ ∃ o ∈ temp, o.id = i ∧ o.lastUpdate = none) ∨
    (∃ f, fopt = some f ∧ (∃ o ∈ temp, o.id = i) ∧
      ∃ c ∈ s.connections, c.objectId = i ∧ c.fieldname = f ∧ c.lastUpdate = none) := by
  unfold freshnessOffender at h
  cases hf : temp.find? (fun o => o.lastUpdate.isNone) with
  | some o =>
      rw [hf] at h
      injection h with h'
      left
      have hi : o.id = i := congrArg Prod.fst h'
      have hfo : (none : Option String) = fopt := congrArg Prod.snd h'
      refine ⟨hfo.symm, o, List.mem_of_find?_eq_some hf, hi, ?_⟩
      have := List.find?_some hf
      simpa using this
  | none =>
      rw [hf] at h
      cases hfs : temp.findSome? (fun o2 =>
          (s.connections.find? (fun c2 => c2.objectId == o2.id && c2.lastUpdate.isNone)).map
            (fun c2 => (o2.id, c2.fieldname))) with
      | none => rw [hfs] at h; simp at h
      | some p =>
          rw [hfs] at h
          injection h with h'
          have hi : p.1 = i := congrArg Prod.fst h'
          have hfo : some p.2 = fopt := congrArg Prod.snd h'
          right
          obtain ⟨o, ho, heq⟩ := List.exists_of_findSome?_eq_some hfs
          cases hcf : s.connections.find?
              (fun c2 => c2.objectId == o.id && c2.lastUpdate.isNone) with
          | none => rw [hcf] at heq; simp at heq
          | some c =>
              rw [hcf] at heq
              have hps : (o.id, c.fieldname) = p := by simpa using heq
              have hoi : o.id = i := by rw [← hi, ← hps]
              have hcfld : c.fieldname = p.2 := by rw [← hps]
              have hpred := List.find?_some hcf
              simp only [Bool.and_eq_true, beq_iff_eq, Option.isNone_iff_eq_none] at hpred
              exact ⟨p.2, hfo.symm, ⟨o, ho, hoi⟩, c, List.mem_of_find?_eq_some hcf,
                hpred.1.trans hoi, hcfld, hpred.2⟩

theorem freshnessOffender_isSome (s : State) (temp : List ObjRow)
    (h : (∃ o ∈ temp, o.lastUpdate = none) ∨
         (∃ o ∈ temp, ∃ c ∈ s.connections, c.objectId = o.id ∧ c.lastUpdate = none)) :
    (freshnessOffender s temp).isSome := by
  unfold freshnessOffender
  cases hf : temp.find? (fun o => o.lastUpdate.isNone) with
  | some o => simp
  | none =>
      rcases h with ⟨o, ho, hnone⟩ | ⟨o, ho, c, hc, hoid, hnone⟩
      · exfalso
        have hs : (temp.find? (fun o2 => o2.lastUpdate.isNone)).isSome :=
          List.find?_isSome.mpr ⟨o, ho, by simp [hnone]⟩
        rw [hf] at hs
        simp at hs
      · have hmap : (s.connections.find?
            (fun c2 => c2.objectId == o.id && c2.lastUpdate.isNone)).isSome :=
          List.find?_isSome.mpr ⟨c, hc, by simp [hoid, hnone]⟩
        have hsome : (temp.findSome? (fun o2 =>
            (s.connections.find? (fun c2 => c2.objectId == o2.id && c2.lastUpdate.isNone)).map
              (fun c2 => (o2.id, c2.fieldname)))).isSome := by
          rw [List.findSome?_isSome_iff]
          exact ⟨o, ho, by simpa using hmap⟩
        cases hfs : temp.findSome? (fun o2 =>
            (s.connections.find? (fun c2 => c2.objectId == o2.id && c2.lastUpdate.isNone)).map
              (fun c2 => (o2.id, c2.fieldname))) with
        | none => rw [hfs] at hsome; simp at hsome
        | some p => simp

theorem mem_computeTemp (s : State) (root : String) (o : ObjRow)
    (ho : o ∈ s.objects) (hr : Reachable s root o.id) :
    o ∈ computeTemp s root := by
  unfold computeTemp
  apply List.mem_filter.mpr
  refine ⟨ho, ?_⟩
  exact List.elem_iff.mpr (transitiveDependencies_complete s root o.id hr)

theorem computeTemp_mem (s : State) (root : String) (o : ObjRow)
    (ho : o ∈ computeTemp s root) : o ∈ s.objects ∧ Reachable s root o.id := by
  unfold computeTemp at ho
  obtain ⟨h1, h2⟩ := List.mem_filter.mp ho
  exact ⟨h1, transitiveDependencies_sound s root o.id (List.elem_iff.mp h2)⟩

/-- C8: `extract(rootId)` fails whenever some object transitively
reachable from the root (via non-NULL link children and non-NULL
connection-entry children) has never had its own data fetched, or some
connection attached to such a reachable object has never been fetched;
the error names the offending object id, and distinguishes missing own
data (`none`) from a missing named connection (`some fieldname`). -/
theorem extract_names_unfetched_dependency (m : Mirror) (s : State) (root : String)
    (hoff : (∃ o ∈ s.objects, Reachable s root o.id ∧ o.lastUpdate = none) ∨
            (∃ o ∈ s.objects, ∃ c ∈ s.connections, Reachable s root o.id ∧
               c.objectId = o.id ∧ c.lastUpdate = none)) :
    ∃ id fopt, extract m s root = .error (.notFetched root id fopt) ∧
      Reachable s root id ∧ (∃ o ∈ s.objects, o.id = id) ∧
      (fopt = none → ∃ o ∈ s.objects, o.id = id ∧ o.lastUpdate = none) ∧
      (∀ f, fopt = some f →
        ∃ c ∈ s.connections, c.objectId = id ∧ c.fieldname = f ∧ c.lastUpdate = none) := by
  have htemp : (∃ o ∈ computeTemp s root, o.lastUpdate = none) ∨
      (∃ o ∈ computeTemp s root, ∃ c ∈ s.connections,
        c.objectId = o.id ∧ c.lastUpdate = none) := by
    rcases hoff with ⟨o, ho, hr, hnone⟩ | ⟨o, ho, c, hc, hr, hoid, hnone⟩
    · exact Or.inl ⟨o, mem_computeTemp s root o ho hr, hnone⟩
    · exact Or.inr ⟨o, mem_computeTemp s root o ho hr, c, hc, hoid, hnone⟩
  have hsome := freshnessOffender_isSome s (computeTemp s root) htemp
  cases hq : freshnessOffender s (computeTemp s root) with
  | none => rw [hq] at hsome; simp at hsome
  | some q =>
      obtain ⟨i, fopt⟩ := q
      have hex : extract m s root = .error (.notFetched root i fopt) := by
        unfold extract
        dsimp only
        rw [hq]
      refine ⟨i, fopt, hex, ?_⟩
      rcases freshnessOffender_spec s (computeTemp s root) i fopt hq with
        ⟨hfo, o, ho, hoi, hnone⟩ | ⟨f, hfo, ⟨o, ho, hoi⟩, c, hc, hcoid, hcf, hcnone⟩
      · obtain ⟨hobj, hreach⟩ := computeTemp_mem s root o ho
        subst hfo
        refine ⟨hoi ▸ hreach, ⟨o, hobj, hoi⟩, fun _ => ⟨o, hobj, hoi, hnone⟩, ?_⟩
        intro f hcontra
        simp at hcontra
      · obtain ⟨hobj, hreach⟩ := computeTemp_mem s root o ho
        subst hfo
        refine ⟨hoi ▸ hreach, ⟨o, hobj, hoi⟩, ?_, ?_⟩
        · intro hcontra; simp at hcontra
        · intro f2 hf2
          have : f = f2 := by injection hf2
          subst this
          exact ⟨c, hc, hcoid, hcf, hcnone⟩

/-- Witness for C8: in a concrete store where the fetched issue `i1`
links to the never-fetched user `u1`, extraction fails naming `u1` and
its missing own data. -/
theorem extract_names_unfetched_dependency_witness :
    extract exampleMirror (State.mk none true []
        [ObjRow.mk "i1" "Issue" (some 1), ObjRow.mk "u1" "User" none]
        [LinkRow.mk "i1" "author" (some "u1")] [] [] [] 1) "i1" =
      .error (.notFetched "i1" "u1" none) ∧
    (∃ id fopt, extract exampleMirror (State.mk none true []
        [ObjRow.mk "i1" "Issue" (some 1), ObjRow.mk "u1" "User" none]
        [LinkRow.mk "i1" "author" (some "u1")] [] [] [] 1) "i1" =
        .error (.notFetched "i1" id fopt) ∧
      Reachable (State.mk none true []
        [ObjRow.mk "i1" "Issue" (some 1), ObjRow.mk "u1" "User" none]
        [LinkRow.mk "i1" "author" (some "u1")] [] [] [] 1) "i1" id ∧
      (∃ o ∈ (State.mk none true []
        [ObjRow.mk "i1" "Issue" (some 1), ObjRow.mk "u1" "User" none]
        [LinkRow.mk "i1" "author" (some "u1")] [] [] [] 1).objects, o.id = id) ∧
      (fopt = none → ∃ o ∈ (State.mk none true []
        [ObjRow.mk "i1" "Issue" (some 1), ObjRow.mk "u1" "User" none]
        [LinkRow.mk "i1" "author" (some "u1")] [] [] [] 1).objects,
          o.id = id ∧ o.lastUpdate = none) ∧
      (∀ f, fopt = some f → ∃ c ∈ (State.mk none true []
        [ObjRow.mk "i1" "Issue" (some 1), ObjRow.mk "u1" "User" none]
        [LinkRow.mk "i1" "author" (some "u1")] [] [] [] 1).connections,
          c.objectId = id ∧ c.fieldname = f ∧ c.lastUpdate = none)) := by
  constructor
  · rfl
  · exact extract_names_unfetched_dependency exampleMirror
      (State.mk none true []
        [ObjRow.mk "i1" "Issue" (some 1), ObjRow.mk "u1" "User" none]
        [LinkRow.mk "i1" "author" (some "u1")] [] [] [] 1) "i1"
      (Or.inl ⟨ObjRow.mk "u1" "User" none, by decide,
        Reachable.link "i1" "u1" (LinkRow.mk "i1" "author" (some "u1"))
          Reachable.refl (by decide) rfl rfl, rfl⟩)
